import Mathlib

/-!
# Zircon object-wait system calls

A shallow embedding of `kernel/lib/syscalls/syscalls_object_wait.cpp`:
`sys_object_wait_one`, `sys_object_wait_many` and `sys_object_wait_async`.

Each system call is a pure function of its arguments and of an environment `Env`
that answers every call the source makes into a collaborator (handle table,
`WaitStateObserver`, `Event`, `thread_sleep_etc`, allocator, port).  The result is
the returned status, the ordered list of collaborator calls the system call made
(`Action`s), and what was stored to user memory.  The effect of the actions on the
kernel (handle-table lock, per-object observer registry) is given by `KState.step`.

The `ktrace` calls (compiled only `#if WITH_LIB_KTRACE`) are tracing and are left out.
-/

namespace Zircon

/-! ## Scalar types and constants -/

abbrev zx_status_t := Int
abbrev zx_handle_t := Nat
abbrev zx_signals_t := Nat
abbrev zx_time_t := Nat
abbrev zx_rights_t := Nat
abbrev zx_koid_t := Nat

/-- Status codes used by the file; the values are those of `zircon/errors.h`
(a header that is not part of the sources at hand; only their being pairwise
distinct matters below). -/
def ZX_OK : zx_status_t := 0
def ZX_ERR_NO_MEMORY : zx_status_t := -4
def ZX_ERR_INVALID_ARGS : zx_status_t := -10
def ZX_ERR_BAD_HANDLE : zx_status_t := -11
def ZX_ERR_TIMED_OUT : zx_status_t := -21
def ZX_ERR_CANCELED : zx_status_t := -23
def ZX_ERR_ACCESS_DENIED : zx_status_t := -30

/-- Rights bits, `zircon/rights.h`: `ZX_RIGHT_READ = 1u << 2`. -/
def ZX_RIGHT_READ : zx_rights_t := 4
/-- Rights bits, `zircon/rights.h`: `ZX_RIGHT_WRITE = 1u << 3`. -/
def ZX_RIGHT_WRITE : zx_rights_t := 8

/-- The reserved signal `ZX_SIGNAL_HANDLE_CLOSED = 1u << 23` (`zircon/types.h`). -/
def ZX_SIGNAL_HANDLE_CLOSED : zx_signals_t := 2 ^ 23

/-- Source line 33: `constexpr uint32_t kMaxWaitHandleCount = 1024u;` -/
def kMaxWaitHandleCount : Nat := 1024

/-- Source line 36: `constexpr size_t kWaitManyInlineCount = 8u;` -/
def kWaitManyInlineCount : Nat := 8

/-! ## Data model -/

/-- One entry of the request array of `sys_object_wait_many` (`zx_wait_item_t`). -/
structure zx_wait_item_t where
  handle : zx_handle_t
  waitfor : zx_signals_t
  pending : zx_signals_t
deriving DecidableEq, Repr, Inhabited

/-- A handle-table entry: the object it refers to (by koid) and its rights. -/
structure Handle where
  dispatcher : zx_koid_t
  rights : zx_rights_t
deriving DecidableEq, Repr

/-- Modelled from the spec: `Handle::HasRights` of `object/handle.h`, the
`has_rights(handle, required) -> bool` of the handle-table collaborator: all the
required rights bits are present. -/
def Handle.HasRights (self : Handle) (rights : zx_rights_t) : Bool :=
  (self.rights &&& rights) == rights

/-- A user pointer (`user_ptr<T>`): whether it is non-null, whether copies from and
to the user memory it addresses succeed, and the user memory contents by index. -/
structure user_ptr (α : Type) where
  non_null : Bool
  readable : Bool
  writable : Bool
  mem : Nat → α

/-- The call `_items.copy_array_from_user(items.get(), count)`: on success the `count`
entries of the user array; `none` when the copy faults. -/
def user_ptr.copy_array_from_user {α : Type} (p : user_ptr α) (count : Nat) :
    Option (List α) :=
  if p.readable then some ((List.range count).map p.mem) else none

/-- The calls a system call makes into its collaborators, in program order.  `Event`
is the construction of the `Event` the wait calls block on (the declaration
`Event event;` of source lines 44 and 119). -/
inductive Action where
  | Event
  | lock_acquire
  | lock_release
  | GetHandleLocked (handle_value : zx_handle_t)
  | HasRights (handle_value : zx_handle_t) (rights : zx_rights_t)
  | Begin (slot : Nat) (dispatcher : zx_koid_t) (signals : zx_signals_t)
      (status : zx_status_t)
  | End (slot : Nat)
  | Wait (deadline : zx_time_t)
  | thread_sleep_etc (deadline : zx_time_t)
  | copy_array_from_user (count : Nat)
  | copy_to_user (signals_state : zx_signals_t)
  | copy_array_to_user (items : List zx_wait_item_t)
  | GetDispatcherWithRights (port_handle : zx_handle_t) (rights : zx_rights_t)
  | MakeObserver (port : zx_koid_t) (options : Nat) (handle : Handle) (key : Nat)
      (signals : zx_signals_t)
deriving DecidableEq, Repr

/-- The answers of the collaborators.  `slot` is the index of the
`WaitStateObserver` in the per-call observer array (0 for `sys_object_wait_one`). -/
structure Env where
  /-- The handle table, `up->GetHandleLocked(handle_value)`. -/
  GetHandleLocked : zx_handle_t → Option Handle
  /-- Status of `wait_state_observers[slot].Begin(&event, handle, signals)`. -/
  Begin : Nat → Handle → zx_signals_t → zx_status_t
  /-- Signal snapshot returned by `wait_state_observers[slot].End()`. -/
  End : Nat → zx_signals_t
  /-- Status of `event.Wait(deadline)`. -/
  Wait : zx_time_t → zx_status_t
  /-- Status of `thread_sleep_etc(deadline, interruptable)`. -/
  thread_sleep_etc : zx_time_t → Bool → zx_status_t
  /-- Result of `ac.check()` after the n-th `fbl::InlineArray` construction
  (0: `items`, 1: `wait_state_observers`). -/
  alloc_check : Nat → Bool
  /-- Status and port of `up->GetDispatcherWithRights(port_handle, rights, &port)`. -/
  GetDispatcherWithRights : zx_handle_t → zx_rights_t → zx_status_t × zx_koid_t
  /-- Status of `port->MakeObserver(options, handle, key, signals)`. -/
  MakeObserver : zx_koid_t → Nat → Handle → Nat → zx_signals_t → zx_status_t

/-- What a system call did: returned status, collaborator calls in order, and the
values stored to user memory (`none`: nothing stored). -/
structure Outcome where
  status : zx_status_t
  trace : List Action
  observed : Option zx_signals_t
  items : Option (List zx_wait_item_t)

/-! ## Kernel state touched by the calls -/

/-- The handle-table lock, the number of observers registered on each object, and
the object each `WaitStateObserver` slot of the running call is registered on. -/
structure KState where
  lock_held : Bool
  observers : zx_koid_t → Nat
  bound : Nat → Option zx_koid_t

/-- Modelled from the spec: the effect of one collaborator call on the kernel state.
`AutoLock` acquires and releases the handle-table lock; `WaitStateObserver::Begin`
(`object/wait_state_observer.h`, not at hand), when it succeeds, inserts the observer
into the object's observer collection; `WaitStateObserver::End` removes it (and is a
no-op on an observer that is not registered).  Port observers made by `MakeObserver`
are not wait-state observers and are not counted. -/
def KState.step (s : KState) : Action → KState
  | .lock_acquire => { s with lock_held := true }
  | .lock_release => { s with lock_held := false }
  | .Begin slot d _ status =>
    if status = ZX_OK then
      { s with observers := Function.update s.observers d (s.observers d + 1),
               bound := Function.update s.bound slot (some d) }
    else { s with bound := Function.update s.bound slot none }
  | .End slot =>
    match s.bound slot with
    | some d =>
      { s with observers := Function.update s.observers d (s.observers d - 1),
               bound := Function.update s.bound slot none }
    | none => s
  | _ => s

/-- The kernel state after a sequence of collaborator calls. -/
def KState.run (s : KState) (t : List Action) : KState := t.foldl KState.step s

/-- The kernel state a system call starts from: the lock is free, the per-call
observers are freshly constructed (registered nowhere), and the objects carry
whatever observers `observers` says. -/
def KState.initial (observers : zx_koid_t → Nat) : KState :=
  { lock_held := false, observers := observers, bound := fun _ => none }

/-! ## Collaborator calls -/

/-- The call `wait_state_observers[slot].Begin(&event, handle, signals)`. -/
def WaitStateObserver.Begin (env : Env) (slot : Nat) (handle : Handle)
    (signals : zx_signals_t) : zx_status_t × List Action :=
  let status := env.Begin slot handle signals
  (status, [Action.Begin slot handle.dispatcher signals status])

/-- The call `wait_state_observers[slot].End()`. -/
def WaitStateObserver.End (env : Env) (slot : Nat) : zx_signals_t × List Action :=
  (env.End slot, [Action.End slot])

/-! ## `sys_object_wait_one` (source lines 38-91) -/

def sys_object_wait_one (env : Env) (handle_value : zx_handle_t) (signals : zx_signals_t)
    (deadline : zx_time_t) (_observed : user_ptr zx_signals_t) : Outcome :=
  -- Event event;
  let t := [Action.Event]
  -- AutoLock lock(up->handle_table_lock());
  let t := t ++ [Action.lock_acquire, Action.GetHandleLocked handle_value]
  match env.GetHandleLocked handle_value with
  | none =>
    { status := ZX_ERR_BAD_HANDLE, trace := t ++ [Action.lock_release],
      observed := none, items := none }
  | some handle =>
    let t := t ++ [Action.HasRights handle_value ZX_RIGHT_READ]
    if !handle.HasRights ZX_RIGHT_READ then
      { status := ZX_ERR_ACCESS_DENIED, trace := t ++ [Action.lock_release],
        observed := none, items := none }
    else
      let (result, tb) := WaitStateObserver.Begin env 0 handle signals
      let t := t ++ tb
      if result ≠ ZX_OK then
        { status := result, trace := t ++ [Action.lock_release],
          observed := none, items := none }
      else
        -- end of the locked block
        let t := t ++ [Action.lock_release]
        let result := env.Wait deadline
        let t := t ++ [Action.Wait deadline]
        -- Regardless of wait outcome, we must call End().
        let (signals_state, te) := WaitStateObserver.End env 0
        let t := t ++ te
        if _observed.non_null then
          let t := t ++ [Action.copy_to_user signals_state]
          if !_observed.writable then
            { status := ZX_ERR_INVALID_ARGS, trace := t, observed := none, items := none }
          else if signals_state &&& ZX_SIGNAL_HANDLE_CLOSED ≠ 0 then
            { status := ZX_ERR_CANCELED, trace := t,
              observed := some signals_state, items := none }
          else
            { status := result, trace := t, observed := some signals_state, items := none }
        else if signals_state &&& ZX_SIGNAL_HANDLE_CLOSED ≠ 0 then
          { status := ZX_ERR_CANCELED, trace := t, observed := none, items := none }
        else
          { status := result, trace := t, observed := none, items := none }

/-! ## `sys_object_wait_many` (source lines 93-169) -/

/-- The registration loop, lines 128-142:
`for (; num_added != count; ++num_added) { ... break on failure ... }`.
The first argument is `count - num_added`, the number of iterations left; the loop
condition `num_added != count` is `remaining ≠ 0`.  Returns `result`, the final
`num_added`, and the calls made. -/
def register_loop (env : Env) (items : List zx_wait_item_t) :
    Nat → Nat → zx_status_t × Nat × List Action
  | 0, num_added => (ZX_OK, num_added, [])
  | remaining + 1, num_added =>
    let item := items.getD num_added default
    let t := [Action.GetHandleLocked item.handle]
    match env.GetHandleLocked item.handle with
    | none => (ZX_ERR_BAD_HANDLE, num_added, t)
    | some handle =>
      let t := t ++ [Action.HasRights item.handle ZX_RIGHT_READ]
      if !handle.HasRights ZX_RIGHT_READ then (ZX_ERR_ACCESS_DENIED, num_added, t)
      else
        let (result, tb) := WaitStateObserver.Begin env num_added handle item.waitfor
        if result ≠ ZX_OK then (result, num_added, t ++ tb)
        else
          let (r, n, rest) := register_loop env items remaining (num_added + 1)
          (r, n, t ++ tb ++ rest)

/-- The unwind loop, lines 145-146:
`for (size_t ix = 0; ix < num_added; ++ix) wait_state_observers[ix].End();`.
The first argument is `num_added - ix`. -/
def unwind_loop (env : Env) : Nat → Nat → List Action
  | 0, _ => []
  | remaining + 1, ix => (WaitStateObserver.End env ix).2 ++ unwind_loop env remaining (ix + 1)

/-- The harvest loop, lines 157-160:
`for (size_t ix = 0; ix != count; ++ix)
   combined |= (items[ix].pending = wait_state_observers[ix].End());`.
The first argument is `count - ix`.  Returns `combined`, the updated `items`, and
the calls made. -/
def harvest_loop (env : Env) :
    Nat → Nat → List zx_wait_item_t → zx_signals_t →
      zx_signals_t × List zx_wait_item_t × List Action
  | 0, _, items, combined => (combined, items, [])
  | remaining + 1, ix, items, combined =>
    let (pending, te) := WaitStateObserver.End env ix
    let items := items.set ix { items.getD ix default with pending := pending }
    let combined := combined ||| pending
    let (c, its, rest) := harvest_loop env remaining (ix + 1) items combined
    (c, its, te ++ rest)

def sys_object_wait_many (env : Env) (_items : user_ptr zx_wait_item_t) (count : Nat)
    (deadline : zx_time_t) : Outcome :=
  if count = 0 then
    let result := env.thread_sleep_etc deadline true
    let t := [Action.thread_sleep_etc deadline]
    if result ≠ ZX_OK then
      { status := result, trace := t, observed := none, items := none }
    else
      { status := ZX_ERR_TIMED_OUT, trace := t, observed := none, items := none }
  else if !_items.non_null then
    { status := ZX_ERR_INVALID_ARGS, trace := [], observed := none, items := none }
  else if count > kMaxWaitHandleCount then
    { status := ZX_ERR_INVALID_ARGS, trace := [], observed := none, items := none }
  else if !env.alloc_check 0 then
    { status := ZX_ERR_NO_MEMORY, trace := [], observed := none, items := none }
  else
    let t := [Action.copy_array_from_user count]
    match _items.copy_array_from_user count with
    | none => { status := ZX_ERR_INVALID_ARGS, trace := t, observed := none, items := none }
    | some items =>
      if !env.alloc_check 1 then
        { status := ZX_ERR_NO_MEMORY, trace := t, observed := none, items := none }
      else
        -- Event event;
        let t := t ++ [Action.Event]
        -- AutoLock lock(up->handle_table_lock());
        let t := t ++ [Action.lock_acquire]
        let (result, num_added, tr) := register_loop env items count 0
        let t := t ++ tr ++ [Action.lock_release]
        if result ≠ ZX_OK then
          let t := t ++ unwind_loop env num_added 0
          { status := result, trace := t, observed := none, items := none }
        else
          let result := env.Wait deadline
          let t := t ++ [Action.Wait deadline]
          -- Regardless of wait outcome, we must call End().
          let (combined, items, th) := harvest_loop env count 0 items 0
          let t := t ++ th ++ [Action.copy_array_to_user items]
          if !_items.writable then
            { status := ZX_ERR_INVALID_ARGS, trace := t, observed := none, items := none }
          else if combined &&& ZX_SIGNAL_HANDLE_CLOSED ≠ 0 then
            { status := ZX_ERR_CANCELED, trace := t, observed := none, items := some items }
          else
            { status := result, trace := t, observed := none, items := some items }

/-! ## `sys_object_wait_async` (source lines 171-192) -/

def sys_object_wait_async (env : Env) (handle_value port_handle : zx_handle_t) (key : Nat)
    (signals : zx_signals_t) (options : Nat) : Outcome :=
  let (status, port) := env.GetDispatcherWithRights port_handle ZX_RIGHT_WRITE
  let t := [Action.GetDispatcherWithRights port_handle ZX_RIGHT_WRITE]
  if status ≠ ZX_OK then
    { status := status, trace := t, observed := none, items := none }
  else
    -- AutoLock lock(up->handle_table_lock());
    let t := t ++ [Action.lock_acquire, Action.GetHandleLocked handle_value]
    match env.GetHandleLocked handle_value with
    | none =>
      { status := ZX_ERR_BAD_HANDLE, trace := t ++ [Action.lock_release],
        observed := none, items := none }
    | some handle =>
      let t := t ++ [Action.HasRights handle_value ZX_RIGHT_READ]
      if !handle.HasRights ZX_RIGHT_READ then
        { status := ZX_ERR_ACCESS_DENIED, trace := t ++ [Action.lock_release],
          observed := none, items := none }
      else
        { status := env.MakeObserver port options handle key signals,
          trace := t ++ [Action.MakeObserver port options handle key signals,
                         Action.lock_release],
          observed := none, items := none }

/-! ## Reading a trace -/

/-- The action is the construction of an `Event`. -/
def Action.isEvent : Action → Bool
  | .Event => true
  | _ => false

/-- The action is a call of `WaitStateObserver::Begin`. -/
def Action.isBegin : Action → Bool
  | .Begin _ _ _ _ => true
  | _ => false

/-- The action is a call of `WaitStateObserver::Begin` on observer `slot`. -/
def Action.isBeginOf (slot : Nat) : Action → Bool
  | .Begin s _ _ _ => s == slot
  | _ => false

/-- The action is a call of `WaitStateObserver::End`. -/
def Action.isEnd : Action → Bool
  | .End _ => true
  | _ => false

/-- The action suspends the calling thread: `event.Wait` or `thread_sleep_etc`. -/
def Action.isSuspend : Action → Bool
  | .Wait _ => true
  | .thread_sleep_etc _ => true
  | _ => false

/-- The action stores to user memory. -/
def Action.isCopyOut : Action → Bool
  | .copy_to_user _ => true
  | .copy_array_to_user _ => true
  | _ => false

/-- The action is a `MakeObserver` call on a port. -/
def Action.isMakeObserver : Action → Bool
  | .MakeObserver _ _ _ _ _ => true
  | _ => false

/-- The handle value a `GetHandleLocked` action resolves. -/
def Action.resolved : Action → Option zx_handle_t
  | .GetHandleLocked hv => some hv
  | _ => none

/-- The action may run while the handle-table lock is held: handle resolution, the
rights check and `Begin` (and, in `sys_object_wait_async`, nothing of the two wait
calls). -/
def Action.underLock : Action → Bool
  | .GetHandleLocked _ => true
  | .HasRights _ _ => true
  | .Begin _ _ _ _ => true
  | _ => false

/-- The outcome of registering request `item` at index `j`, read off the handle table
and `Begin`: `ZX_ERR_BAD_HANDLE` for an absent handle, `ZX_ERR_ACCESS_DENIED` for one
without `ZX_RIGHT_READ`, else the status of `Begin` on observer `j`. -/
def registration_status (env : Env) (j : Nat) (item : zx_wait_item_t) : zx_status_t :=
  match env.GetHandleLocked item.handle with
  | none => ZX_ERR_BAD_HANDLE
  | some handle =>
    if handle.HasRights ZX_RIGHT_READ then env.Begin j handle item.waitfor
    else ZX_ERR_ACCESS_DENIED

/-- The collaborator calls that registering request `item` at index `j` takes: the
handle lookup, then the rights check if the handle is present, then `Begin` if it has
`ZX_RIGHT_READ`. -/
def registration_calls (env : Env) (j : Nat) (item : zx_wait_item_t) : List Action :=
  match env.GetHandleLocked item.handle with
  | none => [Action.GetHandleLocked item.handle]
  | some handle =>
    if handle.HasRights ZX_RIGHT_READ then
      [Action.GetHandleLocked item.handle, Action.HasRights item.handle ZX_RIGHT_READ,
       Action.Begin j handle.dispatcher item.waitfor (env.Begin j handle item.waitfor)]
    else [Action.GetHandleLocked item.handle, Action.HasRights item.handle ZX_RIGHT_READ]

/-- The object a request refers to (0 when the handle is absent). -/
def request_koid (env : Env) (item : zx_wait_item_t) : zx_koid_t :=
  match env.GetHandleLocked item.handle with
  | none => 0
  | some handle => handle.dispatcher

/-- The calls of `sys_object_wait_many` up to the end of the locked block when the
first `n` requests register. -/
def locked_block_calls (env : Env) (req : Nat → zx_wait_item_t) (count n : Nat) :
    List Action :=
  [Action.copy_array_from_user count, Action.Event, Action.lock_acquire] ++
    (List.range' 0 n).flatMap fun j => registration_calls env j (req j)

/-- The bitwise OR of the snapshots returned by `End` on observers `0..count-1`. -/
def combined_signals (env : Env) (count : Nat) : zx_signals_t :=
  (List.range count).foldl (fun acc i => acc ||| env.End i) 0

/-- The signal set includes `ZX_SIGNAL_HANDLE_CLOSED`. -/
def includes_closed (signals : zx_signals_t) : Prop :=
  signals &&& ZX_SIGNAL_HANDLE_CLOSED ≠ 0

instance (signals : zx_signals_t) : Decidable (includes_closed signals) := by
  unfold includes_closed; infer_instance

/-- The handle-table lock discipline of a trace, checked action by action from the
lock state `held`: the lock is acquired only when free and released only when held,
a suspending action happens only with the lock free, with the lock held only handle
resolution, rights checks and `Begin` happen, and the trace ends with the lock free. -/
def lock_discipline : Bool → List Action → Bool
  | held, [] => !held
  | held, .lock_acquire :: t => !held && lock_discipline true t
  | held, .lock_release :: t => held && lock_discipline false t
  | held, a :: t => (!held || a.underLock) && !(held && a.isSuspend) && lock_discipline held t

/-- The lock discipline of a trace in terms of the kernel state, the trace being run
from a state with the lock free: before each acquisition the lock is free and before
each release it is held; at each suspending action the lock is not held; while the
lock is held the next action is a handle resolution, a rights check, a `Begin`, or
the release; at the end the lock is free, and there are as many acquisitions as
releases. -/
def lock_scoped_to_registration (trace : List Action) : Prop :=
  (∀ (obs : zx_koid_t → Nat) (pre : List Action) (a : Action) (post : List Action),
    trace = pre ++ a :: post →
      (a = Action.lock_acquire → ((KState.initial obs).run pre).lock_held = false) ∧
      (a = Action.lock_release → ((KState.initial obs).run pre).lock_held = true) ∧
      (a.isSuspend = true → ((KState.initial obs).run pre).lock_held = false) ∧
      (((KState.initial obs).run pre).lock_held = true →
        a.underLock = true ∨ a = Action.lock_release)) ∧
  (∀ obs : zx_koid_t → Nat, ((KState.initial obs).run trace).lock_held = false) ∧
  trace.count Action.lock_acquire = trace.count Action.lock_release

/-! ## Sample environments -/

/-- A sample process: handle 1 is object 10 with `ZX_RIGHT_READ`, handle 2 is object 20
with no rights, handle 5 is object 11 with `ZX_RIGHT_READ`, handle 3 is port 30 with
`ZX_RIGHT_WRITE`; every collaborator call succeeds and `End` reports signal bit 0. -/
def sample_env : Env where
  GetHandleLocked := fun hv =>
    if hv = 1 then some ⟨10, 4⟩ else if hv = 2 then some ⟨20, 0⟩
    else if hv = 5 then some ⟨11, 4⟩ else none
  Begin := fun _ _ _ => ZX_OK
  End := fun _ => 1
  Wait := fun _ => ZX_OK
  thread_sleep_etc := fun _ _ => ZX_OK
  alloc_check := fun _ => true
  GetDispatcherWithRights := fun hv r =>
    if hv = 3 ∧ r = 8 then (ZX_OK, 30) else (ZX_ERR_BAD_HANDLE, 0)
  MakeObserver := fun _ _ _ _ _ => ZX_OK

/-- The sample process when the waited-on handles are closed during the wait: every
`End` reports `ZX_SIGNAL_HANDLE_CLOSED`. -/
def closed_env : Env := { sample_env with End := fun _ => ZX_SIGNAL_HANDLE_CLOSED }

/-- The sample process when the heap is exhausted: every allocation check fails. -/
def no_memory_env : Env := { sample_env with alloc_check := fun _ => false }

/-- The sample process when the interruptible sleep of the calling thread is cut short
and `thread_sleep_etc` reports an error status (here -6). -/
def interrupted_env : Env := { sample_env with thread_sleep_etc := fun _ _ => -6 }

/-- A user pointer to memory that can be read and written. -/
def good_ptr {α : Type} (mem : Nat → α) : user_ptr α :=
  { non_null := true, readable := true, writable := true, mem := mem }

/-- A non-null user pointer to memory that faults on access. -/
def bad_ptr {α : Type} (mem : Nat → α) : user_ptr α :=
  { non_null := true, readable := false, writable := false, mem := mem }

/-- The null user pointer. -/
def null_ptr {α : Type} (mem : Nat → α) : user_ptr α :=
  { non_null := false, readable := false, writable := false, mem := mem }

/-- A request array: entry 0 waits on handle 1, entry 1 on handle 5, every further
entry on the absent handle 9. -/
def sample_items : Nat → zx_wait_item_t := fun i =>
  if i = 0 then ⟨1, 1, 0⟩ else if i = 1 then ⟨5, 2, 0⟩ else ⟨9, 1, 0⟩

/-! ## Lemmas on the loops of `sys_object_wait_many` -/

theorem ZX_ERR_BAD_HANDLE_ne_OK : ZX_ERR_BAD_HANDLE ≠ ZX_OK := by decide

theorem ZX_ERR_ACCESS_DENIED_ne_OK : ZX_ERR_ACCESS_DENIED ≠ ZX_OK := by decide

theorem getD_copy_array {α : Type} [Inhabited α] (mem : Nat → α) (count j : Nat)
    (h : j < count) : ((List.range count).map mem).getD j default = mem j := by
  simp [List.getD_eq_getElem?_getD, List.getElem?_map, List.getElem?_range h]

/-- One iteration of the registration loop: on success of request `num_added` the loop
goes on with the next index, on failure it stops with that status and index. -/
theorem register_loop_succ (env : Env) (items : List zx_wait_item_t) (n num_added : Nat) :
    register_loop env items (n + 1) num_added =
      if registration_status env num_added (items.getD num_added default) = ZX_OK then
        ((register_loop env items n (num_added + 1)).1,
         (register_loop env items n (num_added + 1)).2.1,
         registration_calls env num_added (items.getD num_added default) ++
           (register_loop env items n (num_added + 1)).2.2)
      else
        (registration_status env num_added (items.getD num_added default), num_added,
         registration_calls env num_added (items.getD num_added default)) := by
  rw [register_loop]
  generalize items.getD num_added default = item
  cases hh : env.GetHandleLocked item.handle with
  | none =>
    simp [registration_status, registration_calls, hh, ZX_ERR_BAD_HANDLE_ne_OK]
  | some handle =>
    by_cases hr : handle.HasRights ZX_RIGHT_READ = true
    · by_cases hb : env.Begin num_added handle item.waitfor = ZX_OK
      · simp [registration_status, registration_calls, hh, hr, hb, WaitStateObserver.Begin]
      · simp [registration_status, registration_calls, hh, hr, hb, WaitStateObserver.Begin]
    · simp only [Bool.not_eq_true] at hr
      simp [registration_status, registration_calls, hh, hr, ZX_ERR_ACCESS_DENIED_ne_OK]

/-- The registration loop when every remaining request registers; `req j` is the
request at index `j` of the array. -/
theorem register_loop_all_ok (env : Env) (items : List zx_wait_item_t)
    (req : Nat → zx_wait_item_t) :
    ∀ (n ix : Nat),
      (∀ j, ix ≤ j → j < ix + n → items.getD j default = req j) →
      (∀ j, ix ≤ j → j < ix + n → registration_status env j (req j) = ZX_OK) →
      register_loop env items n ix =
        (ZX_OK, ix + n, (List.range' ix n).flatMap fun j => registration_calls env j (req j))
  | 0, ix, _, _ => by simp [register_loop]
  | n + 1, ix, hreq, h => by
    have h0 : registration_status env ix (req ix) = ZX_OK :=
      h ix (Nat.le_refl _) (by omega)
    have hr0 : items.getD ix default = req ix := hreq ix (Nat.le_refl _) (by omega)
    have ih := register_loop_all_ok env items req n (ix + 1)
      (fun j h1 h2 => hreq j (by omega) (by omega))
      (fun j h1 h2 => h j (by omega) (by omega))
    rw [register_loop_succ, hr0, if_pos h0, ih]
    simp [List.range'_succ]
    omega

/-- The registration loop when request `k` is the first that fails. -/
theorem register_loop_first_failure (env : Env) (items : List zx_wait_item_t)
    (req : Nat → zx_wait_item_t) (k : Nat) :
    ∀ (n ix : Nat), ix ≤ k → k < ix + n →
      (∀ j, ix ≤ j → j ≤ k → items.getD j default = req j) →
      (∀ j, ix ≤ j → j < k → registration_status env j (req j) = ZX_OK) →
      registration_status env k (req k) ≠ ZX_OK →
      register_loop env items n ix =
        (registration_status env k (req k), k,
         ((List.range' ix (k - ix)).flatMap fun j => registration_calls env j (req j)) ++
           registration_calls env k (req k))
  | 0, ix, h1, h2, _, _, _ => by omega
  | n + 1, ix, h1, h2, hreq, hok, hk => by
    have hr0 : items.getD ix default = req ix := hreq ix (Nat.le_refl _) h1
    by_cases hix : ix = k
    · subst hix
      rw [register_loop_succ, hr0, if_neg hk]
      simp
    · have h0 : registration_status env ix (req ix) = ZX_OK :=
        hok ix (Nat.le_refl _) (by omega)
      have ih := register_loop_first_failure env items req k n (ix + 1) (by omega) (by omega)
        (fun j h3 h4 => hreq j (by omega) h4)
        (fun j h3 h4 => hok j (by omega) h4) hk
      rw [register_loop_succ, hr0, if_pos h0, ih]
      have hsub : k - ix = (k - (ix + 1)) + 1 := by omega
      rw [hsub, List.range'_succ]
      simp

/-- The unwind loop ends observers `ix`, `ix + 1`, ... in order. -/
theorem unwind_loop_eq (env : Env) :
    ∀ (n ix : Nat), unwind_loop env n ix = (List.range' ix n).map Action.End
  | 0, _ => by simp [unwind_loop]
  | n + 1, ix => by
    simp [unwind_loop, WaitStateObserver.End, List.range'_succ, unwind_loop_eq env n (ix + 1)]

/-- The harvest loop makes the same calls as the unwind loop. -/
theorem harvest_loop_trace (env : Env) :
    ∀ (n ix : Nat) (items : List zx_wait_item_t) (combined : zx_signals_t),
      (harvest_loop env n ix items combined).2.2 = (List.range' ix n).map Action.End
  | 0, _, _, _ => by simp [harvest_loop]
  | n + 1, ix, items, combined => by
    simp [harvest_loop, WaitStateObserver.End, List.range'_succ,
      harvest_loop_trace env n (ix + 1)]

/-- The harvest loop ORs the snapshots of `End` into `combined`. -/
theorem harvest_loop_combined (env : Env) :
    ∀ (n ix : Nat) (items : List zx_wait_item_t) (combined : zx_signals_t),
      (harvest_loop env n ix items combined).1 =
        (List.range' ix n).foldl (fun acc i => acc ||| env.End i) combined
  | 0, _, _, _ => by simp [harvest_loop]
  | n + 1, ix, items, combined => by
    simp [harvest_loop, WaitStateObserver.End, List.range'_succ,
      harvest_loop_combined env n (ix + 1)]

/-- The harvest loop stores the snapshot of `End` on observer `j` in `items[j].pending`
for the indices it visits, and changes nothing else. -/
theorem harvest_loop_items (env : Env) :
    ∀ (n ix : Nat) (items : List zx_wait_item_t) (combined : zx_signals_t) (j : Nat),
      (harvest_loop env n ix items combined).2.1[j]? =
        if ix ≤ j ∧ j < ix + n then
          items[j]?.map fun it => { it with pending := env.End j }
        else items[j]?
  | 0, ix, items, combined, j => by
    have h0 : ¬ (ix ≤ j ∧ j < ix + 0) := by omega
    rw [if_neg h0]
    simp [harvest_loop]
  | n + 1, ix, items, combined, j => by
    have ih := harvest_loop_items env n (ix + 1)
      (items.set ix { items.getD ix default with pending := env.End ix })
      (combined ||| env.End ix) j
    simp only [harvest_loop, WaitStateObserver.End]
    rw [ih]
    by_cases hj : ix = j
    · subst hj
      have h1 : ¬ (ix + 1 ≤ ix ∧ ix < ix + 1 + n) := by omega
      have h2 : ix ≤ ix ∧ ix < ix + (n + 1) := by omega
      rw [if_neg h1, if_pos h2, List.getElem?_set]
      by_cases hl : ix < items.length
      · simp [hl, List.getD_eq_getElem?_getD, List.getElem?_eq_getElem hl]
      · have : items[ix]? = none := List.getElem?_eq_none (by omega)
        simp [hl, this]
    · have hset : (items.set ix { items.getD ix default with pending := env.End ix })[j]?
          = items[j]? := by
        rw [List.getElem?_set, if_neg hj]
      rw [hset]
      by_cases hr : ix + 1 ≤ j ∧ j < ix + 1 + n
      · have h2 : ix ≤ j ∧ j < ix + (n + 1) := by omega
        rw [if_pos hr, if_pos h2]
      · have h2 : ¬ (ix ≤ j ∧ j < ix + (n + 1)) := by omega
        rw [if_neg hr, if_neg h2]

/-- The array the harvest loop leaves, for a request array copied in from user memory:
entry `i` is the request `i` with `pending` set to the snapshot of `End` on
observer `i`. -/
theorem harvest_loop_copy (env : Env) (mem : Nat → zx_wait_item_t) (count : Nat)
    (combined : zx_signals_t) :
    (harvest_loop env count 0 ((List.range count).map mem) combined).2.1 =
      (List.range count).map fun i => { mem i with pending := env.End i } := by
  apply List.ext_getElem?
  intro j
  rw [harvest_loop_items]
  by_cases hj : j < count
  · have h1 : 0 ≤ j ∧ j < 0 + count := by omega
    rw [if_pos h1]
    simp [List.getElem?_map, List.getElem?_range hj]
  · have h1 : ¬ (0 ≤ j ∧ j < 0 + count) := by omega
    have h2 : ((List.range count).map mem)[j]? = none :=
      List.getElem?_eq_none (by simp; omega)
    have h3 : ((List.range count).map fun i => { mem i with pending := env.End i })[j]?
        = none := List.getElem?_eq_none (by simp; omega)
    rw [if_neg h1, h2, h3]

/-! ## Lemmas on the kernel state -/

theorem KState.run_nil (s : KState) : s.run [] = s := rfl

theorem KState.run_cons (s : KState) (a : Action) (t : List Action) :
    s.run (a :: t) = (s.step a).run t := rfl

theorem KState.run_append (s : KState) (a b : List Action) :
    s.run (a ++ b) = (s.run a).run b := by
  simp [KState.run, List.foldl_append]

/-- A registration that succeeds adds one observer on the request's object and binds
observer `j` to it. -/
theorem run_registration_ok (env : Env) (j : Nat) (item : zx_wait_item_t) (s : KState)
    (h : registration_status env j item = ZX_OK) :
    s.run (registration_calls env j item) =
      { lock_held := s.lock_held,
        observers := Function.update s.observers (request_koid env item)
          (s.observers (request_koid env item) + 1),
        bound := Function.update s.bound j (some (request_koid env item)) } := by
  unfold registration_status at h
  cases hh : env.GetHandleLocked item.handle with
  | none =>
    rw [hh] at h
    exact absurd h ZX_ERR_BAD_HANDLE_ne_OK
  | some handle =>
    rw [hh] at h
    by_cases hr : handle.HasRights ZX_RIGHT_READ = true
    · simp only [hr, if_true] at h
      simp [registration_calls, request_koid, hh, hr, h, KState.run, KState.step]
    · simp only [hr] at h
      exact absurd h ZX_ERR_ACCESS_DENIED_ne_OK

/-- A registration that fails registers nothing. -/
theorem run_registration_failed (env : Env) (j : Nat) (item : zx_wait_item_t) (s : KState)
    (h : registration_status env j item ≠ ZX_OK) (hb : s.bound j = none) :
    (s.run (registration_calls env j item)).lock_held = s.lock_held ∧
    (s.run (registration_calls env j item)).observers = s.observers ∧
    (s.run (registration_calls env j item)).bound = s.bound := by
  unfold registration_status at h
  cases hh : env.GetHandleLocked item.handle with
  | none => simp [registration_calls, hh, KState.run, KState.step]
  | some handle =>
    rw [hh] at h
    by_cases hr : handle.HasRights ZX_RIGHT_READ = true
    · simp only [hr, if_true] at h
      simp [registration_calls, hh, hr, h, KState.run, KState.step, hb]
    · simp [registration_calls, hh, hr, KState.run, KState.step]

/-- The state after the registrations of requests `req ix .. req (ix + n - 1)`, all
successful. -/
theorem run_registrations (env : Env) (req : Nat → zx_wait_item_t) :
    ∀ (n ix : Nat) (s : KState),
      (∀ j, ix ≤ j → j < ix + n → registration_status env j (req j) = ZX_OK) →
      (s.run ((List.range' ix n).flatMap fun j =>
          registration_calls env j (req j))).lock_held = s.lock_held ∧
      (∀ j, (s.run ((List.range' ix n).flatMap fun j =>
          registration_calls env j (req j))).bound j =
        if ix ≤ j ∧ j < ix + n then some (request_koid env (req j)) else s.bound j) ∧
      (∀ d, (s.run ((List.range' ix n).flatMap fun j =>
          registration_calls env j (req j))).observers d =
        s.observers d + (List.range' ix n).countP fun j => request_koid env (req j) = d)
  | 0, ix, s, _ => by
    refine ⟨by simp [KState.run_nil], ?_, by simp [KState.run_nil]⟩
    intro j
    have h0 : ¬ (ix ≤ j ∧ j < ix + 0) := by omega
    rw [if_neg h0]
    simp [KState.run_nil]
  | n + 1, ix, s, h => by
    have h0 : registration_status env ix (req ix) = ZX_OK :=
      h ix (Nat.le_refl _) (by omega)
    have hrun : s.run ((List.range' ix (n + 1)).flatMap fun j =>
          registration_calls env j (req j)) =
        (s.run (registration_calls env ix (req ix))).run
          ((List.range' (ix + 1) n).flatMap fun j => registration_calls env j (req j)) := by
      rw [List.range'_succ, List.flatMap_cons, KState.run_append]
    rw [hrun, run_registration_ok env ix _ s h0]
    obtain ⟨ih1, ih2, ih3⟩ := run_registrations env req n (ix + 1)
      { lock_held := s.lock_held,
        observers := Function.update s.observers (request_koid env (req ix))
          (s.observers (request_koid env (req ix)) + 1),
        bound := Function.update s.bound ix (some (request_koid env (req ix))) }
      (fun j h1 h2 => h j (by omega) (by omega))
    refine ⟨ih1, ?_, ?_⟩
    · intro j
      rw [ih2 j]
      by_cases hj : j = ix
      · subst hj
        have h1 : ¬ (j + 1 ≤ j ∧ j < j + 1 + n) := by omega
        have h2 : j ≤ j ∧ j < j + (n + 1) := by omega
        rw [if_neg h1, if_pos h2]
        simp
      · by_cases hr : ix + 1 ≤ j ∧ j < ix + 1 + n
        · have h2 : ix ≤ j ∧ j < ix + (n + 1) := by omega
          rw [if_pos hr, if_pos h2]
        · have h2 : ¬ (ix ≤ j ∧ j < ix + (n + 1)) := by omega
          rw [if_neg hr, if_neg h2]
          simp [Function.update_apply, hj]
    · intro d
      rw [ih3 d, List.range'_succ, List.countP_cons]
      by_cases hd : request_koid env (req ix) = d
      · subst hd
        simp
        omega
      · have hd2 : d ≠ request_koid env (req ix) := fun e => hd e.symm
        simp [Function.update_apply, hd, hd2]

/-- The state after `End` on observers `ix .. ix + n - 1`, observer `j` being
registered on object `f j`. -/
theorem run_ends (f : Nat → zx_koid_t) :
    ∀ (n ix : Nat) (s : KState),
      (∀ j, ix ≤ j → j < ix + n → s.bound j = some (f j)) →
      (s.run ((List.range' ix n).map Action.End)).lock_held = s.lock_held ∧
      (∀ j, (s.run ((List.range' ix n).map Action.End)).bound j =
        if ix ≤ j ∧ j < ix + n then none else s.bound j) ∧
      (∀ d, (s.run ((List.range' ix n).map Action.End)).observers d =
        s.observers d - (List.range' ix n).countP fun j => f j = d)
  | 0, ix, s, _ => by
    refine ⟨by simp [KState.run_nil], ?_, by simp [KState.run_nil]⟩
    intro j
    have h0 : ¬ (ix ≤ j ∧ j < ix + 0) := by omega
    rw [if_neg h0]
    simp [KState.run_nil]
  | n + 1, ix, s, h => by
    have hb : s.bound ix = some (f ix) := h ix (Nat.le_refl _) (by omega)
    have hstep : s.step (Action.End ix) =
        { lock_held := s.lock_held,
          observers := Function.update s.observers (f ix) (s.observers (f ix) - 1),
          bound := Function.update s.bound ix none } := by
      simp [KState.step, hb]
    have hrun : s.run ((List.range' ix (n + 1)).map Action.End) =
        (s.step (Action.End ix)).run ((List.range' (ix + 1) n).map Action.End) := by
      rw [List.range'_succ, List.map_cons, KState.run_cons]
    rw [hrun, hstep]
    obtain ⟨ih1, ih2, ih3⟩ := run_ends f n (ix + 1)
      { lock_held := s.lock_held,
        observers := Function.update s.observers (f ix) (s.observers (f ix) - 1),
        bound := Function.update s.bound ix none }
      (fun j h1 h2 => by
        have hne : j ≠ ix := by omega
        simp only [Function.update_apply, hne, if_false]
        exact h j (by omega) (by omega))
    refine ⟨ih1, ?_, ?_⟩
    · intro j
      rw [ih2 j]
      by_cases hj : j = ix
      · subst hj
        have h1 : ¬ (j + 1 ≤ j ∧ j < j + 1 + n) := by omega
        have h2 : j ≤ j ∧ j < j + (n + 1) := by omega
        rw [if_neg h1, if_pos h2]
        simp
      · by_cases hr : ix + 1 ≤ j ∧ j < ix + 1 + n
        · have h2 : ix ≤ j ∧ j < ix + (n + 1) := by omega
          rw [if_pos hr, if_pos h2]
        · have h2 : ¬ (ix ≤ j ∧ j < ix + (n + 1)) := by omega
          rw [if_neg hr, if_neg h2]
          simp [Function.update_apply, hj]
    · intro d
      rw [ih3 d, List.range'_succ, List.countP_cons]
      by_cases hd : f ix = d
      · subst hd
        simp
        omega
      · have hd2 : d ≠ f ix := fun e => hd e.symm
        simp [Function.update_apply, hd, hd2]

/-! ## The two ways through `sys_object_wait_many` once registration starts -/

/-- The call when request `k` is the first whose registration fails. -/
theorem wait_many_first_failure (env : Env) (_items : user_ptr zx_wait_item_t)
    (count : Nat) (deadline : zx_time_t) (k : Nat)
    (h1 : 1 ≤ count) (h2 : count ≤ kMaxWaitHandleCount)
    (hnn : _items.non_null = true) (hrd : _items.readable = true)
    (ha0 : env.alloc_check 0 = true) (ha1 : env.alloc_check 1 = true)
    (hk : k < count)
    (hok : ∀ j, j < k → registration_status env j (_items.mem j) = ZX_OK)
    (hfail : registration_status env k (_items.mem k) ≠ ZX_OK) :
    sys_object_wait_many env _items count deadline =
      { status := registration_status env k (_items.mem k),
        trace := locked_block_calls env _items.mem count k ++
          registration_calls env k (_items.mem k) ++ [Action.lock_release] ++
          (List.range' 0 k).map Action.End,
        observed := none, items := none } := by
  have hc : count ≠ 0 := by omega
  have hmax : ¬ (count > kMaxWaitHandleCount) := by omega
  have hloop := register_loop_first_failure env ((List.range count).map _items.mem)
    _items.mem k count 0 (Nat.zero_le _) (by omega)
    (fun j _ hj => getD_copy_array _items.mem count j (by omega))
    (fun j _ hj => hok j hj) hfail
  simp [sys_object_wait_many, hc, hnn, hmax, ha0, ha1, user_ptr.copy_array_from_user, hrd,
    hloop, unwind_loop_eq, locked_block_calls, hfail]

/-- The call when all `count` requests register. -/
theorem wait_many_registered (env : Env) (_items : user_ptr zx_wait_item_t)
    (count : Nat) (deadline : zx_time_t)
    (h1 : 1 ≤ count) (h2 : count ≤ kMaxWaitHandleCount)
    (hnn : _items.non_null = true) (hrd : _items.readable = true)
    (ha0 : env.alloc_check 0 = true) (ha1 : env.alloc_check 1 = true)
    (hok : ∀ j, j < count → registration_status env j (_items.mem j) = ZX_OK) :
    sys_object_wait_many env _items count deadline =
      { status :=
          if _items.writable = false then ZX_ERR_INVALID_ARGS
          else if combined_signals env count &&& ZX_SIGNAL_HANDLE_CLOSED ≠ 0 then
            ZX_ERR_CANCELED
          else env.Wait deadline,
        trace := locked_block_calls env _items.mem count count ++
          [Action.lock_release, Action.Wait deadline] ++
          (List.range' 0 count).map Action.End ++
          [Action.copy_array_to_user
            ((List.range count).map fun i => { _items.mem i with pending := env.End i })],
        observed := none,
        items :=
          if _items.writable = false then none
          else some ((List.range count).map fun i =>
            { _items.mem i with pending := env.End i }) } := by
  have hc : count ≠ 0 := by omega
  have hmax : ¬ (count > kMaxWaitHandleCount) := by omega
  have hloop := register_loop_all_ok env ((List.range count).map _items.mem)
    _items.mem count 0
    (fun j _ hj => getD_copy_array _items.mem count j (by omega))
    (fun j _ hj => hok j (by omega))
  by_cases hw : _items.writable = true
  · by_cases hcl : combined_signals env count &&& ZX_SIGNAL_HANDLE_CLOSED = 0
    · have hcl2 := hcl
      simp only [combined_signals, List.range_eq_range'] at hcl2
      simp [sys_object_wait_many, hc, hnn, hmax, ha0, ha1, user_ptr.copy_array_from_user,
        hrd, hloop, harvest_loop_trace, harvest_loop_copy, harvest_loop_combined,
        locked_block_calls, hw, hcl, hcl2]
    · have hcl2 := hcl
      simp only [combined_signals, List.range_eq_range'] at hcl2
      simp [sys_object_wait_many, hc, hnn, hmax, ha0, ha1, user_ptr.copy_array_from_user,
        hrd, hloop, harvest_loop_trace, harvest_loop_copy, harvest_loop_combined,
        locked_block_calls, hw, hcl, hcl2]
  · simp only [Bool.not_eq_true] at hw
    simp [sys_object_wait_many, hc, hnn, hmax, ha0, ha1, user_ptr.copy_array_from_user,
      hrd, hloop, harvest_loop_trace, harvest_loop_copy, locked_block_calls, hw]

/-! ## Lemmas on the contents of the traces -/

/-- A registration that succeeds makes exactly three calls. -/
theorem registration_calls_ok (env : Env) (j : Nat) (item : zx_wait_item_t)
    (h : registration_status env j item = ZX_OK) :
    registration_calls env j item =
      [Action.GetHandleLocked item.handle, Action.HasRights item.handle ZX_RIGHT_READ,
       Action.Begin j (request_koid env item) item.waitfor ZX_OK] := by
  unfold registration_status at h
  cases hh : env.GetHandleLocked item.handle with
  | none =>
    rw [hh] at h
    exact absurd h ZX_ERR_BAD_HANDLE_ne_OK
  | some handle =>
    rw [hh] at h
    by_cases hr : handle.HasRights ZX_RIGHT_READ = true
    · simp only [hr, if_true] at h
      simp [registration_calls, request_koid, hh, hr, h]
    · simp only [hr] at h
      exact absurd h ZX_ERR_ACCESS_DENIED_ne_OK

/-- What the calls of one registration can be. -/
theorem registration_calls_mem (env : Env) (j : Nat) (item : zx_wait_item_t) (a : Action)
    (h : a ∈ registration_calls env j item) :
    a.underLock = true ∧ a.isEnd = false ∧ a.isSuspend = false ∧ a.isCopyOut = false ∧
    a ≠ Action.lock_acquire ∧ a ≠ Action.lock_release ∧
    (∀ i, a.isBeginOf i = true → i = j) := by
  unfold registration_calls at h
  cases hh : env.GetHandleLocked item.handle with
  | none =>
    rw [hh] at h
    simp only [List.mem_singleton] at h
    subst h
    simp [Action.underLock, Action.isEnd, Action.isSuspend, Action.isCopyOut,
      Action.isBeginOf]
  | some handle =>
    rw [hh] at h
    by_cases hr : handle.HasRights ZX_RIGHT_READ = true
    · simp only [if_pos hr] at h
      simp only [List.mem_cons, List.mem_singleton, List.not_mem_nil, or_false] at h
      rcases h with h | h | h
      · subst h
        simp [Action.underLock, Action.isEnd, Action.isSuspend, Action.isCopyOut,
          Action.isBeginOf]
      · subst h
        simp [Action.underLock, Action.isEnd, Action.isSuspend, Action.isCopyOut,
          Action.isBeginOf]
      · subst h
        simp [Action.underLock, Action.isEnd, Action.isSuspend, Action.isCopyOut,
          Action.isBeginOf]
    · simp only [if_neg hr] at h
      simp only [List.mem_cons, List.mem_singleton, List.not_mem_nil, or_false] at h
      rcases h with h | h
      · subst h
        simp [Action.underLock, Action.isEnd, Action.isSuspend, Action.isCopyOut,
          Action.isBeginOf]
      · subst h
        simp [Action.underLock, Action.isEnd, Action.isSuspend, Action.isCopyOut,
          Action.isBeginOf]

/-- Each registration resolves exactly the handle of its request. -/
theorem registration_calls_resolved (env : Env) (j : Nat) (item : zx_wait_item_t) :
    (registration_calls env j item).filterMap Action.resolved = [item.handle] := by
  unfold registration_calls
  cases hh : env.GetHandleLocked item.handle with
  | none => simp [Action.resolved]
  | some handle =>
    by_cases hr : handle.HasRights ZX_RIGHT_READ = true
    · simp [hr, Action.resolved]
    · simp [hr, Action.resolved]

/-- The handles resolved by the registrations of requests `ix .. ix + n - 1`. -/
theorem registrations_resolved (env : Env) (req : Nat → zx_wait_item_t) :
    ∀ (n ix : Nat),
      ((List.range' ix n).flatMap fun j => registration_calls env j (req j)).filterMap
          Action.resolved
        = (List.range' ix n).map fun j => (req j).handle
  | 0, _ => by simp
  | n + 1, ix => by
    rw [List.range'_succ, List.flatMap_cons, List.filterMap_append,
      registration_calls_resolved, registrations_resolved env req n (ix + 1)]
    simp

/-- Every call of a run of registrations is one of some registration in the run. -/
theorem registrations_mem (env : Env) (req : Nat → zx_wait_item_t) (n ix : Nat) (a : Action)
    (h : a ∈ (List.range' ix n).flatMap fun j => registration_calls env j (req j)) :
    ∃ j, ix ≤ j ∧ j < ix + n ∧ a ∈ registration_calls env j (req j) := by
  rw [List.mem_flatMap] at h
  obtain ⟨j, hj, ha⟩ := h
  rw [List.mem_range'_1] at hj
  exact ⟨j, hj.1, hj.2, ha⟩

/-- The number of `Begin` calls on observer `i` in a run of successful registrations. -/
theorem registrations_count_begin (env : Env) (req : Nat → zx_wait_item_t) (i : Nat) :
    ∀ (n ix : Nat),
      (∀ j, ix ≤ j → j < ix + n → registration_status env j (req j) = ZX_OK) →
      ((List.range' ix n).flatMap fun j => registration_calls env j (req j)).countP
          (Action.isBeginOf i)
        = if ix ≤ i ∧ i < ix + n then 1 else 0
  | 0, ix, _ => by
    have h0 : ¬ (ix ≤ i ∧ i < ix + 0) := by omega
    rw [if_neg h0]
    simp
  | n + 1, ix, h => by
    have h0 : registration_status env ix (req ix) = ZX_OK :=
      h ix (Nat.le_refl _) (by omega)
    rw [List.range'_succ, List.flatMap_cons, List.countP_append,
      registrations_count_begin env req i n (ix + 1)
        (fun j h1 h2 => h j (by omega) (by omega)),
      registration_calls_ok env ix (req ix) h0]
    by_cases hi : ix = i
    · subst hi
      have h1 : ¬ (ix + 1 ≤ ix ∧ ix < ix + 1 + n) := by omega
      have h2 : ix ≤ ix ∧ ix < ix + (n + 1) := by omega
      rw [if_neg h1, if_pos h2]
      simp [List.countP_cons, Action.isBeginOf]
    · by_cases hr : ix + 1 ≤ i ∧ i < ix + 1 + n
      · have h2 : ix ≤ i ∧ i < ix + (n + 1) := by omega
        rw [if_pos hr, if_pos h2]
        simp [List.countP_cons, Action.isBeginOf, hi]
      · have h2 : ¬ (ix ≤ i ∧ i < ix + (n + 1)) := by omega
        rw [if_neg hr, if_neg h2]
        simp [List.countP_cons, Action.isBeginOf, hi]

/-- The number of `End` calls on observer `i` among `End ix, ..., End (ix + n - 1)`. -/
theorem ends_count (i : Nat) :
    ∀ (n ix : Nat),
      ((List.range' ix n).map Action.End).count (Action.End i)
        = if ix ≤ i ∧ i < ix + n then 1 else 0
  | 0, ix => by
    have h0 : ¬ (ix ≤ i ∧ i < ix + 0) := by omega
    rw [if_neg h0]
    simp
  | n + 1, ix => by
    rw [List.range'_succ, List.map_cons, List.count_cons, ends_count i n (ix + 1)]
    by_cases hi : ix = i
    · subst hi
      have h1 : ¬ (ix + 1 ≤ ix ∧ ix < ix + 1 + n) := by omega
      have h2 : ix ≤ ix ∧ ix < ix + (n + 1) := by omega
      rw [if_neg h1, if_pos h2]
      simp
    · by_cases hr : ix + 1 ≤ i ∧ i < ix + 1 + n
      · have h2 : ix ≤ i ∧ i < ix + (n + 1) := by omega
        rw [if_pos hr, if_pos h2]
        simp [hi]
      · have h2 : ¬ (ix ≤ i ∧ i < ix + (n + 1)) := by omega
        rw [if_neg hr, if_neg h2]
        simp [hi]

/-- No registration calls `End`. -/
theorem registrations_count_end (env : Env) (req : Nat → zx_wait_item_t) (n ix i : Nat) :
    ((List.range' ix n).flatMap fun j => registration_calls env j (req j)).count
      (Action.End i) = 0 := by
  rw [List.count_eq_zero]
  intro hmem
  obtain ⟨j, _, _, hj⟩ := registrations_mem env req n ix _ hmem
  have := (registration_calls_mem env j (req j) _ hj).2.1
  simp [Action.isEnd] at this

theorem registration_calls_count_end (env : Env) (j : Nat) (item : zx_wait_item_t) (i : Nat) :
    (registration_calls env j item).count (Action.End i) = 0 := by
  rw [List.count_eq_zero]
  intro hmem
  have := (registration_calls_mem env j item _ hmem).2.1
  simp [Action.isEnd] at this

/-! ## The kernel state along `sys_object_wait_many` -/

/-- The state at the end of the locked block when the first `n` requests registered:
the lock is held, observer `j < n` is registered on the object of request `j`, and
each object carries its observers of before plus those of the call. -/
theorem run_locked_block (env : Env) (req : Nat → zx_wait_item_t) (count n : Nat)
    (obs : zx_koid_t → Nat)
    (hok : ∀ j, j < n → registration_status env j (req j) = ZX_OK) :
    ((KState.initial obs).run (locked_block_calls env req count n)).lock_held = true ∧
    (∀ j, ((KState.initial obs).run (locked_block_calls env req count n)).bound j =
      if j < n then some (request_koid env (req j)) else none) ∧
    (∀ d, ((KState.initial obs).run (locked_block_calls env req count n)).observers d =
      obs d + (List.range' 0 n).countP fun j => request_koid env (req j) = d) := by
  obtain ⟨r1, r2, r3⟩ := run_registrations env req n 0
    { lock_held := true, observers := obs, bound := fun _ => none }
    (fun j _ h2 => hok j (by omega))
  have hrun : (KState.initial obs).run (locked_block_calls env req count n) =
      (KState.run { lock_held := true, observers := obs, bound := fun _ => none }
        ((List.range' 0 n).flatMap fun j => registration_calls env j (req j))) := by
    unfold locked_block_calls
    rw [KState.run_append]
    rfl
  rw [hrun]
  refine ⟨r1, ?_, r3⟩
  intro j
  rw [r2 j]
  by_cases hj : j < n
  · have h2 : 0 ≤ j ∧ j < 0 + n := by omega
    rw [if_pos hj, if_pos h2]
  · have h2 : ¬ (0 ≤ j ∧ j < 0 + n) := by omega
    rw [if_neg hj, if_neg h2]

/-- Ending observers `0 .. n - 1` of a state in which exactly they are registered
takes every object back to its observers of before the call. -/
theorem run_ends_balanced (f : Nat → zx_koid_t) (n : Nat) (obs : zx_koid_t → Nat)
    (s : KState)
    (hb : ∀ j, s.bound j = if j < n then some (f j) else none)
    (ho : ∀ d, s.observers d = obs d + (List.range' 0 n).countP fun j => f j = d) :
    (s.run ((List.range' 0 n).map Action.End)).lock_held = s.lock_held ∧
    (∀ j, (s.run ((List.range' 0 n).map Action.End)).bound j = none) ∧
    (∀ d, (s.run ((List.range' 0 n).map Action.End)).observers d = obs d) := by
  obtain ⟨r1, r2, r3⟩ := run_ends f n 0 s (fun j _ h2 => by
    rw [hb j, if_pos (by omega)])
  refine ⟨r1, ?_, ?_⟩
  · intro j
    rw [r2 j]
    by_cases hj : j < n
    · rw [if_pos ⟨Nat.zero_le _, by omega⟩]
    · rw [if_neg (by omega), hb j, if_neg hj]
  · intro d
    rw [r3 d, ho d]
    omega

/-- The kernel state after a `sys_object_wait_many` whose request `k` is the first to
fail: lock free, no observer of the call registered, every object's observers as
before the call. -/
theorem run_first_failure (env : Env) (req : Nat → zx_wait_item_t) (count k : Nat)
    (obs : zx_koid_t → Nat)
    (hok : ∀ j, j < k → registration_status env j (req j) = ZX_OK)
    (hfail : registration_status env k (req k) ≠ ZX_OK) :
    ((KState.initial obs).run (locked_block_calls env req count k ++
      registration_calls env k (req k) ++ [Action.lock_release] ++
      (List.range' 0 k).map Action.End)).lock_held = false ∧
    (∀ j, ((KState.initial obs).run (locked_block_calls env req count k ++
      registration_calls env k (req k) ++ [Action.lock_release] ++
      (List.range' 0 k).map Action.End)).bound j = none) ∧
    (∀ d, ((KState.initial obs).run (locked_block_calls env req count k ++
      registration_calls env k (req k) ++ [Action.lock_release] ++
      (List.range' 0 k).map Action.End)).observers d = obs d) := by
  obtain ⟨p1, p2, p3⟩ := run_locked_block env req count k obs hok
  have hbk : ((KState.initial obs).run (locked_block_calls env req count k)).bound k = none := by
    rw [p2 k, if_neg (Nat.lt_irrefl k)]
  obtain ⟨q1, q2, q3⟩ := run_registration_failed env k (req k)
    ((KState.initial obs).run (locked_block_calls env req count k)) hfail hbk
  rw [KState.run_append, KState.run_append, KState.run_append]
  obtain ⟨e1, e2, e3⟩ := run_ends_balanced (fun j => request_koid env (req j)) k obs
    ((((KState.initial obs).run (locked_block_calls env req count k)).run
      (registration_calls env k (req k))).run [Action.lock_release])
    (fun j => by
      show ((((KState.initial obs).run (locked_block_calls env req count k)).run
        (registration_calls env k (req k)))).bound j = _
      rw [q3, p2 j])
    (fun d => by
      show ((((KState.initial obs).run (locked_block_calls env req count k)).run
        (registration_calls env k (req k)))).observers d = _
      rw [q2, p3 d])
  refine ⟨?_, e2, e3⟩
  rw [e1]
  rfl

/-- The kernel state after a `sys_object_wait_many` whose `count` requests all
registered: lock free, no observer of the call registered, every object's observers
as before the call. -/
theorem run_registered (env : Env) (req : Nat → zx_wait_item_t) (count : Nat)
    (deadline : zx_time_t) (obs : zx_koid_t → Nat) (its : List zx_wait_item_t)
    (hok : ∀ j, j < count → registration_status env j (req j) = ZX_OK) :
    ((KState.initial obs).run (locked_block_calls env req count count ++
      [Action.lock_release, Action.Wait deadline] ++
      (List.range' 0 count).map Action.End ++
      [Action.copy_array_to_user its])).lock_held = false ∧
    (∀ j, ((KState.initial obs).run (locked_block_calls env req count count ++
      [Action.lock_release, Action.Wait deadline] ++
      (List.range' 0 count).map Action.End ++
      [Action.copy_array_to_user its])).bound j = none) ∧
    (∀ d, ((KState.initial obs).run (locked_block_calls env req count count ++
      [Action.lock_release, Action.Wait deadline] ++
      (List.range' 0 count).map Action.End ++
      [Action.copy_array_to_user its])).observers d = obs d) := by
  obtain ⟨p1, p2, p3⟩ := run_locked_block env req count count obs hok
  rw [KState.run_append, KState.run_append, KState.run_append]
  obtain ⟨e1, e2, e3⟩ := run_ends_balanced (fun j => request_koid env (req j)) count obs
    (((KState.initial obs).run (locked_block_calls env req count count)).run
      [Action.lock_release, Action.Wait deadline])
    (fun j => by
      show ((KState.initial obs).run (locked_block_calls env req count count)).bound j = _
      rw [p2 j])
    (fun d => by
      show ((KState.initial obs).run (locked_block_calls env req count count)).observers d = _
      rw [p3 d])
  refine ⟨?_, ?_, ?_⟩
  · show (((((KState.initial obs).run (locked_block_calls env req count count)).run
      [Action.lock_release, Action.Wait deadline]).run
      ((List.range' 0 count).map Action.End))).lock_held = false
    rw [e1]
    rfl
  · intro j
    exact e2 j
  · intro d
    exact e3 d

/-- The `End` calls resolve no handle. -/
theorem ends_resolved (n ix : Nat) :
    ((List.range' ix n).map Action.End).filterMap Action.resolved = [] := by
  rw [List.filterMap_eq_nil_iff]
  intro a ha
  rw [List.mem_map] at ha
  obtain ⟨i, _, hi⟩ := ha
  subst hi
  rfl

/-- The `End` calls begin no observer. -/
theorem ends_not_begin (n ix : Nat) (a : Action)
    (h : a ∈ (List.range' ix n).map Action.End) :
    a.isEnd = true ∧ a.isBegin = false ∧ a.isSuspend = false ∧ a.isCopyOut = false ∧
    a ≠ Action.lock_acquire ∧ a ≠ Action.lock_release ∧ ∀ i, a.isBeginOf i = false := by
  rw [List.mem_map] at h
  obtain ⟨i, _, hi⟩ := h
  subst hi
  simp [Action.isEnd, Action.isBegin, Action.isSuspend, Action.isCopyOut, Action.isBeginOf]

/-- The calls of a `sys_object_wait_one` whose handle resolves with the read right
and whose `Begin` succeeds, whatever the Event outcome, the snapshot and the fate of
the copy-out. -/
theorem wait_one_registered_trace (env : Env) (handle_value : zx_handle_t)
    (signals : zx_signals_t) (deadline : zx_time_t) (_observed : user_ptr zx_signals_t)
    (handle : Handle)
    (hres : env.GetHandleLocked handle_value = some handle)
    (hrights : handle.HasRights ZX_RIGHT_READ = true)
    (hbegin : env.Begin 0 handle signals = ZX_OK) :
    (sys_object_wait_one env handle_value signals deadline _observed).trace =
      [Action.Event, Action.lock_acquire, Action.GetHandleLocked handle_value,
       Action.HasRights handle_value ZX_RIGHT_READ,
       Action.Begin 0 handle.dispatcher signals ZX_OK,
       Action.lock_release, Action.Wait deadline, Action.End 0] ++
      (if _observed.non_null = true then [Action.copy_to_user (env.End 0)] else []) := by
  by_cases hn : _observed.non_null = true
  · by_cases hw : _observed.writable = true
    · by_cases hc : env.End 0 &&& ZX_SIGNAL_HANDLE_CLOSED = 0
      · simp [sys_object_wait_one, hres, hrights, hbegin, WaitStateObserver.Begin,
          WaitStateObserver.End, hn, hw, hc]
      · simp [sys_object_wait_one, hres, hrights, hbegin, WaitStateObserver.Begin,
          WaitStateObserver.End, hn, hw, hc]
    · simp [sys_object_wait_one, hres, hrights, hbegin, WaitStateObserver.Begin,
        WaitStateObserver.End, hn, hw]
  · by_cases hc : env.End 0 &&& ZX_SIGNAL_HANDLE_CLOSED = 0
    · simp [sys_object_wait_one, hres, hrights, hbegin, WaitStateObserver.Begin,
        WaitStateObserver.End, hn, hc]
    · simp [sys_object_wait_one, hres, hrights, hbegin, WaitStateObserver.Begin,
        WaitStateObserver.End, hn, hc]

/-- Every `sys_object_wait_one` constructs its `Event` first. -/
theorem wait_one_constructs_event (env : Env) (handle_value : zx_handle_t)
    (signals : zx_signals_t) (deadline : zx_time_t) (_observed : user_ptr zx_signals_t) :
    (sys_object_wait_one env handle_value signals deadline _observed).trace.head?
      = some Action.Event := by
  cases hres : env.GetHandleLocked handle_value with
  | none => simp [sys_object_wait_one, hres]
  | some handle =>
    by_cases hr : handle.HasRights ZX_RIGHT_READ = true
    · by_cases hb : env.Begin 0 handle signals = ZX_OK
      · rw [wait_one_registered_trace env handle_value signals deadline _observed handle
          hres hr hb]
        rfl
      · simp [sys_object_wait_one, hres, hr, hb, WaitStateObserver.Begin]
    · simp [sys_object_wait_one, hres, hr]

/-! ## Lemmas on the combined signal mask -/

theorem includes_closed_iff_testBit (x : zx_signals_t) :
    includes_closed x ↔ Nat.testBit x 23 = true := by
  unfold includes_closed ZX_SIGNAL_HANDLE_CLOSED
  rw [Nat.and_two_pow]
  cases Nat.testBit x 23 <;> simp

/-- A union of two signal sets includes CLOSED exactly when one of them does. -/
theorem includes_closed_or (a b : zx_signals_t) :
    includes_closed (a ||| b) ↔ includes_closed a ∨ includes_closed b := by
  simp [includes_closed_iff_testBit, Nat.testBit_lor]

/-- The mask accumulated over observers `ix .. ix + n - 1` includes CLOSED exactly
when the starting mask or one of their snapshots does. -/
theorem includes_closed_fold (env : Env) :
    ∀ (n ix : Nat) (c : zx_signals_t),
      includes_closed ((List.range' ix n).foldl (fun acc i => acc ||| env.End i) c) ↔
        includes_closed c ∨ ∃ i, ix ≤ i ∧ i < ix + n ∧ includes_closed (env.End i)
  | 0, ix, c => by
    simp only [List.range'_zero, List.foldl_nil]
    constructor
    · intro h
      exact Or.inl h
    · rintro (h | ⟨i, h1, h2, _⟩)
      · exact h
      · omega
  | n + 1, ix, c => by
    rw [List.range'_succ, List.foldl_cons, includes_closed_fold env n (ix + 1),
      includes_closed_or]
    constructor
    · rintro ((h | h) | ⟨i, h1, h2, h3⟩)
      · exact Or.inl h
      · exact Or.inr ⟨ix, Nat.le_refl _, by omega, h⟩
      · exact Or.inr ⟨i, by omega, by omega, h3⟩
    · rintro (h | ⟨i, h1, h2, h3⟩)
      · exact Or.inl (Or.inl h)
      · by_cases hi : i = ix
        · subst hi
          exact Or.inl (Or.inr h3)
        · exact Or.inr ⟨i, by omega, by omega, h3⟩

/-- The combined mask includes CLOSED exactly when some snapshot does. -/
theorem includes_closed_combined (env : Env) (count : Nat) :
    includes_closed (combined_signals env count) ↔
      ∃ i, i < count ∧ includes_closed (env.End i) := by
  unfold combined_signals
  rw [List.range_eq_range', includes_closed_fold]
  constructor
  · rintro (h | ⟨i, _, h2, h3⟩)
    · exact absurd h (by decide)
    · exact ⟨i, by omega, h3⟩
  · rintro ⟨i, h1, h2⟩
    exact Or.inr ⟨i, Nat.zero_le _, by omega, h2⟩

/-! ## Lemmas on reaching the registration loop -/

/-- Every registration starts by resolving the handle of its request. -/
theorem registration_calls_head (env : Env) (j : Nat) (item : zx_wait_item_t) :
    Action.GetHandleLocked item.handle ∈ registration_calls env j item := by
  unfold registration_calls
  cases env.GetHandleLocked item.handle with
  | none => simp
  | some handle =>
    by_cases hr : handle.HasRights ZX_RIGHT_READ = true
    · simp [hr]
    · simp [hr]

/-- A registration loop with an iteration left resolves the handle of the request it
stands at. -/
theorem register_loop_head (env : Env) (items : List zx_wait_item_t) (n ix : Nat) :
    Action.GetHandleLocked (items.getD ix default).handle
      ∈ (register_loop env items (n + 1) ix).2.2 := by
  rw [register_loop_succ]
  by_cases h : registration_status env ix (items.getD ix default) = ZX_OK
  · rw [if_pos h]
    exact List.mem_append_left _ (registration_calls_head env ix _)
  · rw [if_neg h]
    exact registration_calls_head env ix _

/-- The calls of `sys_object_wait_many` once the argument checks, the allocations and
the copy-in are passed, in terms of what the registration loop returns. -/
theorem wait_many_trace_shape (env : Env) (_items : user_ptr zx_wait_item_t)
    (count : Nat) (deadline : zx_time_t)
    (h1 : count ≠ 0) (h2 : count ≤ kMaxWaitHandleCount)
    (hnn : _items.non_null = true) (hrd : _items.readable = true)
    (ha0 : env.alloc_check 0 = true) (ha1 : env.alloc_check 1 = true) :
    (sys_object_wait_many env _items count deadline).trace =
      [Action.copy_array_from_user count, Action.Event, Action.lock_acquire] ++
      (register_loop env ((List.range count).map _items.mem) count 0).2.2 ++
      [Action.lock_release] ++
      (if (register_loop env ((List.range count).map _items.mem) count 0).1 ≠ ZX_OK then
        (List.range' 0
          (register_loop env ((List.range count).map _items.mem) count 0).2.1).map Action.End
      else
        [Action.Wait deadline] ++ (List.range' 0 count).map Action.End ++
        [Action.copy_array_to_user
          (harvest_loop env count 0 ((List.range count).map _items.mem) 0).2.1]) := by
  have hmax : ¬ (count > kMaxWaitHandleCount) := by omega
  by_cases hres : (register_loop env ((List.range count).map _items.mem) count 0).1 = ZX_OK
  · by_cases hw : _items.writable = true
    · by_cases hc : (harvest_loop env count 0 ((List.range count).map _items.mem) 0).1
          &&& ZX_SIGNAL_HANDLE_CLOSED = 0
      · simp [sys_object_wait_many, h1, hnn, hmax, ha0, ha1, user_ptr.copy_array_from_user,
          hrd, hres, hw, hc, harvest_loop_trace]
      · simp [sys_object_wait_many, h1, hnn, hmax, ha0, ha1, user_ptr.copy_array_from_user,
          hrd, hres, hw, hc, harvest_loop_trace]
    · simp [sys_object_wait_many, h1, hnn, hmax, ha0, ha1, user_ptr.copy_array_from_user,
        hrd, hres, hw, harvest_loop_trace]
  · simp [sys_object_wait_many, h1, hnn, hmax, ha0, ha1, user_ptr.copy_array_from_user,
      hrd, hres, unwind_loop_eq]

/-- A `sys_object_wait_many` that passes the argument checks, the allocations and the
copy-in constructs its `Event`. -/
theorem wait_many_constructs_event (env : Env) (_items : user_ptr zx_wait_item_t)
    (count : Nat) (deadline : zx_time_t)
    (h1 : count ≠ 0) (h2 : count ≤ kMaxWaitHandleCount)
    (hnn : _items.non_null = true) (hrd : _items.readable = true)
    (ha0 : env.alloc_check 0 = true) (ha1 : env.alloc_check 1 = true) :
    Action.Event ∈ (sys_object_wait_many env _items count deadline).trace := by
  rw [wait_many_trace_shape env _items count deadline h1 h2 hnn hrd ha0 ha1]
  simp

/-! ## Lemmas on the lock discipline -/

/-- One step of the discipline check follows the lock state of the kernel. -/
theorem lock_discipline_step (s : KState) (b : Action) (rest : List Action)
    (h : lock_discipline s.lock_held (b :: rest) = true) :
    lock_discipline (s.step b).lock_held rest = true := by
  cases b <;> simp [lock_discipline, KState.step] at h ⊢
  case lock_acquire => exact h.2
  case lock_release => exact h.2
  case Begin slot d sig st =>
    by_cases hst : st = ZX_OK
    · simp [hst]
      exact h.2
    · simp [hst]
      exact h.2
  case End slot =>
    cases hb : s.bound slot with
    | none => simp; exact h.2
    | some d => simp; exact h.2
  all_goals exact h.2

/-- What the discipline check says of the action at the head of a trace. -/
theorem lock_discipline_head (held : Bool) (a : Action) (post : List Action)
    (h : lock_discipline held (a :: post) = true) :
    (a = Action.lock_acquire → held = false) ∧
    (a = Action.lock_release → held = true) ∧
    (a.isSuspend = true → held = false) ∧
    (held = true → a.underLock = true ∨ a = Action.lock_release) := by
  cases a <;> cases held <;>
    simp [lock_discipline, Action.isSuspend, Action.underLock] at h ⊢

/-- A trace that passes the discipline check has, before each of its actions, the
lock state the discipline asks for. -/
theorem lock_discipline_sound :
    ∀ (pre : List Action) (s : KState) (a : Action) (post : List Action),
      lock_discipline s.lock_held (pre ++ a :: post) = true →
      (a = Action.lock_acquire → (s.run pre).lock_held = false) ∧
      (a = Action.lock_release → (s.run pre).lock_held = true) ∧
      (a.isSuspend = true → (s.run pre).lock_held = false) ∧
      ((s.run pre).lock_held = true → a.underLock = true ∨ a = Action.lock_release)
  | [], s, a, post, h => lock_discipline_head s.lock_held a post h
  | b :: pre, s, a, post, h => by
    rw [KState.run_cons]
    exact lock_discipline_sound pre (s.step b) a post (lock_discipline_step s b _ h)

/-- A trace that passes the discipline check ends with the lock free. -/
theorem lock_discipline_final :
    ∀ (t : List Action) (s : KState),
      lock_discipline s.lock_held t = true → (s.run t).lock_held = false
  | [], s, h => by
    simpa [lock_discipline] using h
  | b :: t, s, h => by
    rw [KState.run_cons]
    exact lock_discipline_final t (s.step b) (lock_discipline_step s b _ h)

/-- A trace that passes the discipline check releases the lock once per acquisition,
and once more if it starts with the lock held. -/
theorem lock_discipline_count :
    ∀ (t : List Action) (held : Bool), lock_discipline held t = true →
      t.count Action.lock_acquire + (if held = true then 1 else 0)
        = t.count Action.lock_release
  | [], false, _ => by simp
  | [], true, h => by simp [lock_discipline] at h
  | b :: t, false, h => by
    cases b <;> simp [lock_discipline, Action.underLock, Action.isSuspend] at h
    case lock_acquire =>
      have := lock_discipline_count t true h
      simp [List.count_cons] at this ⊢
      omega
    all_goals
      have := lock_discipline_count t false h
      simp [List.count_cons] at this ⊢
      omega
  | b :: t, true, h => by
    cases b <;> simp [lock_discipline, Action.underLock, Action.isSuspend] at h
    case lock_release =>
      have := lock_discipline_count t false h
      simp [List.count_cons] at this ⊢
      omega
    all_goals
      have := lock_discipline_count t true h
      simp [List.count_cons] at this ⊢
      omega

/-- A trace that passes the discipline check from the free lock keeps the lock scoped
to registration. -/
theorem lock_discipline_scoped (t : List Action) (h : lock_discipline false t = true) :
    lock_scoped_to_registration t := by
  refine ⟨?_, ?_, ?_⟩
  · intro obs pre a post ht
    rw [ht] at h
    exact lock_discipline_sound pre (KState.initial obs) a post h
  · intro obs
    exact lock_discipline_final t (KState.initial obs) h
  · have := lock_discipline_count t false h
    simpa using this

/-- Calls that may run under the lock leave the check, lock held, where it was. -/
theorem lock_discipline_under_lock :
    ∀ (t rest : List Action), (∀ a ∈ t, a.underLock = true) →
      lock_discipline true (t ++ rest) = lock_discipline true rest
  | [], rest, _ => rfl
  | b :: t, rest, h => by
    have hb : b.underLock = true := h b (List.mem_cons_self _ _)
    have ih := lock_discipline_under_lock t rest
      (fun a ha => h a (List.mem_cons_of_mem _ ha))
    cases b <;> simp [Action.underLock] at hb <;>
      simp [lock_discipline, Action.underLock, Action.isSuspend, ih]

/-- The `End` calls leave the check, lock free, where it was. -/
theorem lock_discipline_ends (rest : List Action) :
    ∀ (n ix : Nat),
      lock_discipline false ((List.range' ix n).map Action.End ++ rest)
        = lock_discipline false rest
  | 0, _ => by simp
  | n + 1, ix => by
    rw [List.range'_succ, List.map_cons, List.cons_append]
    simp [lock_discipline, lock_discipline_ends rest n (ix + 1)]

/-- Every call of the registration loop may run under the lock. -/
theorem register_loop_under_lock (env : Env) (items : List zx_wait_item_t) :
    ∀ (n ix : Nat), ∀ a ∈ (register_loop env items n ix).2.2, a.underLock = true
  | 0, ix => by simp [register_loop]
  | n + 1, ix => by
    intro a ha
    rw [register_loop_succ] at ha
    by_cases h : registration_status env ix (items.getD ix default) = ZX_OK
    · rw [if_pos h] at ha
      rcases List.mem_append.mp ha with ha | ha
      · exact (registration_calls_mem env ix _ a ha).1
      · exact register_loop_under_lock env items n (ix + 1) a ha
    · rw [if_neg h] at ha
      exact (registration_calls_mem env ix _ a ha).1

/-- Every trace of `sys_object_wait_one` passes the discipline check. -/
theorem wait_one_lock_discipline (env : Env) (handle_value : zx_handle_t)
    (signals : zx_signals_t) (deadline : zx_time_t) (_observed : user_ptr zx_signals_t) :
    lock_discipline false
      (sys_object_wait_one env handle_value signals deadline _observed).trace = true := by
  cases hres : env.GetHandleLocked handle_value with
  | none =>
    simp [sys_object_wait_one, hres, lock_discipline, Action.underLock, Action.isSuspend]
  | some handle =>
    by_cases hr : handle.HasRights ZX_RIGHT_READ = true
    · by_cases hb : env.Begin 0 handle signals = ZX_OK
      · rw [wait_one_registered_trace env handle_value signals deadline _observed handle
          hres hr hb]
        by_cases hn : _observed.non_null = true <;>
          simp [hn, lock_discipline, Action.underLock, Action.isSuspend]
      · simp [sys_object_wait_one, hres, hr, hb, WaitStateObserver.Begin, lock_discipline,
          Action.underLock, Action.isSuspend]
    · simp [sys_object_wait_one, hres, hr, lock_discipline, Action.underLock,
        Action.isSuspend]

/-- Every trace of `sys_object_wait_many` passes the discipline check. -/
theorem wait_many_lock_discipline (env : Env) (_items : user_ptr zx_wait_item_t)
    (count : Nat) (deadline : zx_time_t) :
    lock_discipline false (sys_object_wait_many env _items count deadline).trace = true := by
  by_cases h0 : count = 0
  · by_cases hs : env.thread_sleep_etc deadline true = ZX_OK <;>
      simp [sys_object_wait_many, h0, hs, lock_discipline, Action.underLock,
        Action.isSuspend]
  by_cases hnn : _items.non_null = true
  swap
  · simp [sys_object_wait_many, h0, hnn, lock_discipline]
  by_cases hmax : count > kMaxWaitHandleCount
  · simp [sys_object_wait_many, h0, hnn, hmax, lock_discipline]
  by_cases ha0 : env.alloc_check 0 = true
  swap
  · simp [sys_object_wait_many, h0, hnn, hmax, ha0, lock_discipline]
  by_cases hrd : _items.readable = true
  swap
  · simp [sys_object_wait_many, h0, hnn, hmax, ha0, hrd, user_ptr.copy_array_from_user,
      lock_discipline, Action.underLock, Action.isSuspend]
  by_cases ha1 : env.alloc_check 1 = true
  swap
  · simp [sys_object_wait_many, h0, hnn, hmax, ha0, hrd, ha1, user_ptr.copy_array_from_user,
      lock_discipline, Action.underLock, Action.isSuspend]
  rw [wait_many_trace_shape env _items count deadline h0 (by omega) hnn hrd ha0 ha1]
  have hreg := register_loop_under_lock env ((List.range count).map _items.mem) count 0
  simp only [List.append_assoc, List.cons_append, List.nil_append, List.singleton_append]
  simp only [lock_discipline, Action.underLock, Action.isSuspend, Bool.not_false,
    Bool.true_or, Bool.false_and, Bool.and_self, Bool.true_and, Bool.and_true]
  rw [lock_discipline_under_lock _ _ hreg]
  by_cases hres : (register_loop env ((List.range count).map _items.mem) count 0).1 = ZX_OK
  · simp only [hres, ne_eq, not_true_eq_false, if_false]
    simp only [lock_discipline, Action.underLock, Action.isSuspend, Bool.not_false,
      Bool.true_or, Bool.false_and, Bool.and_self, Bool.true_and, Bool.and_true]
    rw [lock_discipline_ends]
    simp [lock_discipline, Action.underLock, Action.isSuspend]
  · simp only [hres, ne_eq, not_false_eq_true, if_true]
    simp only [lock_discipline, Bool.true_and]
    have := lock_discipline_ends []
      (register_loop env ((List.range count).map _items.mem) count 0).2.1 0
    rw [List.append_nil] at this
    rw [this]
    rfl

/-! ## Theorems -/

/-- C1 (as stated) fails: nine requests of which the third (index 2) is the lowest
that cannot register, its handle being absent; the allocation of the per-call array
fails and the call returns `ZX_ERR_NO_MEMORY`, not the `ZX_ERR_BAD_HANDLE` of index 2,
having made no collaborator call. -/
theorem wait_many_no_memory_counterexample :
    (1 ≤ 9 ∧ 9 ≤ kMaxWaitHandleCount) ∧
    (∀ j, j < 2 → registration_status no_memory_env j (sample_items j) = ZX_OK) ∧
    no_memory_env.GetHandleLocked (sample_items 2).handle = none ∧
    registration_status no_memory_env 2 (sample_items 2) = ZX_ERR_BAD_HANDLE ∧
    (sys_object_wait_many no_memory_env (good_ptr sample_items) 9 100).status
      = ZX_ERR_NO_MEMORY ∧
    (sys_object_wait_many no_memory_env (good_ptr sample_items) 9 100).status
      ≠ registration_status no_memory_env 2 (sample_items 2) ∧
    (sys_object_wait_many no_memory_env (good_ptr sample_items) 9 100).trace = [] := by
  decide

/-- C1 (amended): registration in `sys_object_wait_many` is all-or-nothing.  Take a
request array of `count` entries, `1 ≤ count ≤ 1024`, in which `k` is the lowest index
whose handle is absent, lacks `ZX_RIGHT_READ`, or whose `Begin` fails.  If the request
pointer is absent or the copy-in faults the call returns `ZX_ERR_INVALID_ARGS`, and if
one of the two per-call arrays cannot be allocated it returns `ZX_ERR_NO_MEMORY`, in
each case before any handle is resolved.  Otherwise registration is reached and the
call returns the error of index `k` (`ZX_ERR_BAD_HANDLE`, `ZX_ERR_ACCESS_DENIED`, or
the status of `Begin`), resolves the handles of indices `0..k` only, begins no index
above `k`, begins each index below `k` once, calls `End` exactly once on each observer
`0..k-1` and on no other, and leaves no observer of the call registered: every object
has its observers of before. -/
theorem wait_many_registration_all_or_nothing (env : Env)
    (_items : user_ptr zx_wait_item_t) (count : Nat) (deadline : zx_time_t)
    (obs : zx_koid_t → Nat) (k : Nat)
    (h1 : 1 ≤ count) (h2 : count ≤ kMaxWaitHandleCount)
    (hk : k < count)
    (hok : ∀ j, j < k → registration_status env j (_items.mem j) = ZX_OK)
    (hfail : registration_status env k (_items.mem k) ≠ ZX_OK) :
    (_items.non_null = false →
      (sys_object_wait_many env _items count deadline).status = ZX_ERR_INVALID_ARGS ∧
      (sys_object_wait_many env _items count deadline).trace = []) ∧
    (_items.non_null = true → env.alloc_check 0 = false →
      (sys_object_wait_many env _items count deadline).status = ZX_ERR_NO_MEMORY ∧
      (sys_object_wait_many env _items count deadline).trace = []) ∧
    (_items.non_null = true → env.alloc_check 0 = true → _items.readable = false →
      (sys_object_wait_many env _items count deadline).status = ZX_ERR_INVALID_ARGS ∧
      (sys_object_wait_many env _items count deadline).trace
        = [Action.copy_array_from_user count]) ∧
    (_items.non_null = true → env.alloc_check 0 = true → _items.readable = true →
      env.alloc_check 1 = false →
      (sys_object_wait_many env _items count deadline).status = ZX_ERR_NO_MEMORY ∧
      (sys_object_wait_many env _items count deadline).trace
        = [Action.copy_array_from_user count]) ∧
    (_items.non_null = true → env.alloc_check 0 = true → _items.readable = true →
      env.alloc_check 1 = true →
      (sys_object_wait_many env _items count deadline).status
        = registration_status env k (_items.mem k) ∧
      (env.GetHandleLocked (_items.mem k).handle = none →
        (sys_object_wait_many env _items count deadline).status = ZX_ERR_BAD_HANDLE) ∧
      (∀ handle, env.GetHandleLocked (_items.mem k).handle = some handle →
        (handle.HasRights ZX_RIGHT_READ = false →
          (sys_object_wait_many env _items count deadline).status = ZX_ERR_ACCESS_DENIED) ∧
        (handle.HasRights ZX_RIGHT_READ = true →
          (sys_object_wait_many env _items count deadline).status
            = env.Begin k handle (_items.mem k).waitfor)) ∧
      (sys_object_wait_many env _items count deadline).trace.filterMap Action.resolved
        = (List.range (k + 1)).map (fun j => (_items.mem j).handle) ∧
      (∀ a ∈ (sys_object_wait_many env _items count deadline).trace,
        ∀ i, a.isBeginOf i = true → i ≤ k) ∧
      (∀ i, i < k →
        (sys_object_wait_many env _items count deadline).trace.countP (Action.isBeginOf i)
          = 1) ∧
      (∀ i, (sys_object_wait_many env _items count deadline).trace.count (Action.End i)
        = if i < k then 1 else 0) ∧
      (∀ i, ((KState.initial obs).run
        (sys_object_wait_many env _items count deadline).trace).bound i = none) ∧
      (∀ d, ((KState.initial obs).run
        (sys_object_wait_many env _items count deadline).trace).observers d = obs d) ∧
      (sys_object_wait_many env _items count deadline).items = none) := by
  have hc : count ≠ 0 := by omega
  have hmax : ¬ (count > kMaxWaitHandleCount) := by omega
  refine ⟨?_, ?_, ?_, ?_, ?_⟩
  · intro hnn
    simp [sys_object_wait_many, hc, hnn]
  · intro hnn ha0
    simp [sys_object_wait_many, hc, hnn, hmax, ha0]
  · intro hnn ha0 hrd
    simp [sys_object_wait_many, hc, hnn, hmax, ha0, hrd, user_ptr.copy_array_from_user]
  · intro hnn ha0 hrd ha1
    simp [sys_object_wait_many, hc, hnn, hmax, ha0, hrd, ha1, user_ptr.copy_array_from_user]
  · intro hnn ha0 hrd ha1
    rw [wait_many_first_failure env _items count deadline k h1 h2 hnn hrd ha0 ha1 hk hok hfail]
    obtain ⟨_, s2, s3⟩ := run_first_failure env _items.mem count k obs hok hfail
    refine ⟨rfl, ?_, ?_, ?_, ?_, ?_, ?_, s2, s3, rfl⟩
    · intro hnone
      simp [registration_status, hnone]
    · intro handle hsome
      constructor
      · intro hr
        simp [registration_status, hsome, hr]
      · intro hr
        simp [registration_status, hsome, hr]
    · show (locked_block_calls env _items.mem count k ++
          registration_calls env k (_items.mem k) ++ [Action.lock_release] ++
          (List.range' 0 k).map Action.End).filterMap Action.resolved = _
      unfold locked_block_calls
      rw [List.filterMap_append, List.filterMap_append, List.filterMap_append,
        List.filterMap_append, registrations_resolved, registration_calls_resolved,
        ends_resolved, List.range_succ, List.range_eq_range']
      simp [Action.resolved]
    · intro a ha i hi
      have ha2 : a ∈ locked_block_calls env _items.mem count k ++
          registration_calls env k (_items.mem k) ++ [Action.lock_release] ++
          (List.range' 0 k).map Action.End := ha
      unfold locked_block_calls at ha2
      simp only [List.mem_append, List.mem_cons, List.mem_singleton, List.not_mem_nil,
        or_false] at ha2
      rcases ha2 with (((ha2 | ha2) | ha2) | ha2) | ha2
      · rcases ha2 with ha2 | ha2 | ha2 <;> subst ha2 <;> simp [Action.isBeginOf] at hi
      · obtain ⟨j, _, hj, hmem⟩ := registrations_mem env _items.mem k 0 a ha2
        have := (registration_calls_mem env j (_items.mem j) a hmem).2.2.2.2.2.2 i hi
        omega
      · have := (registration_calls_mem env k (_items.mem k) a ha2).2.2.2.2.2.2 i hi
        omega
      · subst ha2
        simp [Action.isBeginOf] at hi
      · have := (ends_not_begin k 0 a ha2).2.2.2.2.2.2 i
        rw [this] at hi
        exact absurd hi (by decide)
    · intro i hi
      show (locked_block_calls env _items.mem count k ++
          registration_calls env k (_items.mem k) ++ [Action.lock_release] ++
          (List.range' 0 k).map Action.End).countP (Action.isBeginOf i) = 1
      unfold locked_block_calls
      rw [List.countP_append, List.countP_append, List.countP_append, List.countP_append,
        registrations_count_begin env _items.mem i k 0 (fun j _ hj => hok j (by omega)),
        if_pos ⟨Nat.zero_le _, by omega⟩]
      have hk0 : (registration_calls env k (_items.mem k)).countP (Action.isBeginOf i) = 0 := by
        rw [List.countP_eq_zero]
        intro a ha hb
        have := (registration_calls_mem env k (_items.mem k) a ha).2.2.2.2.2.2 i hb
        omega
      have he0 : ((List.range' 0 k).map Action.End).countP (Action.isBeginOf i) = 0 := by
        rw [List.countP_eq_zero]
        intro a ha hb
        have := (ends_not_begin k 0 a ha).2.2.2.2.2.2 i
        rw [this] at hb
        exact absurd hb (by decide)
      rw [hk0, he0]
      simp [List.countP_cons, Action.isBeginOf]
    · intro i
      show (locked_block_calls env _items.mem count k ++
          registration_calls env k (_items.mem k) ++ [Action.lock_release] ++
          (List.range' 0 k).map Action.End).count (Action.End i) = _
      unfold locked_block_calls
      rw [List.count_append, List.count_append, List.count_append, List.count_append,
        registrations_count_end, registration_calls_count_end, ends_count]
      by_cases hi : i < k
      · rw [if_pos ⟨Nat.zero_le _, by omega⟩, if_pos hi]
        simp [List.count_cons]
      · rw [if_neg (by omega), if_neg hi]
        simp [List.count_cons]

/-- Witness for C1 (amended): in the sample process, of three requests the third names
the absent handle 9; the call returns `ZX_ERR_BAD_HANDLE`, ends observers 0 and 1 once
each, and every object keeps its 7 observers. -/
theorem wait_many_registration_all_or_nothing_witness :
    (∀ j, j < 2 → registration_status sample_env j (sample_items j) = ZX_OK) ∧
    registration_status sample_env 2 (sample_items 2) ≠ ZX_OK ∧
    (sys_object_wait_many sample_env (good_ptr sample_items) 3 100).status
      = ZX_ERR_BAD_HANDLE ∧
    (∀ i, (sys_object_wait_many sample_env (good_ptr sample_items) 3 100).trace.count
      (Action.End i) = if i < 2 then 1 else 0) ∧
    (∀ d, ((KState.initial fun _ => 7).run
      (sys_object_wait_many sample_env (good_ptr sample_items) 3 100).trace).observers d
        = 7) :=
  have T := (wait_many_registration_all_or_nothing sample_env (good_ptr sample_items) 3 100
    (fun _ => 7) 2 (by decide) (by decide) (by decide) (by decide)
    (by decide)).2.2.2.2 rfl rfl rfl rfl
  ⟨by decide, by decide, T.2.1 (by decide), T.2.2.2.2.2.2.1, T.2.2.2.2.2.2.2.2.1⟩

/-- C2: every successfully begun observer is ended exactly once.  In every
`sys_object_wait_one` whose handle resolves with the read right and whose `Begin`
succeeds, and in every `sys_object_wait_many` whose `count` registrations all succeed,
whatever the Event outcome, the snapshots and the fate of the copy-out, each observer
of the call has exactly one `Begin` and exactly one `End` and no other observer has
any; after the call no observer of the call is registered and every object's
observer count is what it was before. -/
theorem begun_observers_ended_exactly_once :
    (∀ (env : Env) (handle_value : zx_handle_t) (signals : zx_signals_t)
        (deadline : zx_time_t) (_observed : user_ptr zx_signals_t) (handle : Handle)
        (obs : zx_koid_t → Nat),
      env.GetHandleLocked handle_value = some handle →
      handle.HasRights ZX_RIGHT_READ = true →
      env.Begin 0 handle signals = ZX_OK →
      (∀ i, (sys_object_wait_one env handle_value signals deadline _observed).trace.countP
          (Action.isBeginOf i) = if i = 0 then 1 else 0) ∧
      (∀ i, (sys_object_wait_one env handle_value signals deadline _observed).trace.count
          (Action.End i) = if i = 0 then 1 else 0) ∧
      (∀ i, ((KState.initial obs).run
          (sys_object_wait_one env handle_value signals deadline _observed).trace).bound i
            = none) ∧
      (∀ d, ((KState.initial obs).run
          (sys_object_wait_one env handle_value signals deadline _observed).trace).observers d
            = obs d)) ∧
    (∀ (env : Env) (_items : user_ptr zx_wait_item_t) (count : Nat) (deadline : zx_time_t)
        (obs : zx_koid_t → Nat),
      1 ≤ count → count ≤ kMaxWaitHandleCount →
      _items.non_null = true → _items.readable = true →
      env.alloc_check 0 = true → env.alloc_check 1 = true →
      (∀ j, j < count → registration_status env j (_items.mem j) = ZX_OK) →
      (∀ i, (sys_object_wait_many env _items count deadline).trace.countP
          (Action.isBeginOf i) = if i < count then 1 else 0) ∧
      (∀ i, (sys_object_wait_many env _items count deadline).trace.count
          (Action.End i) = if i < count then 1 else 0) ∧
      (∀ i, ((KState.initial obs).run
          (sys_object_wait_many env _items count deadline).trace).bound i = none) ∧
      (∀ d, ((KState.initial obs).run
          (sys_object_wait_many env _items count deadline).trace).observers d = obs d)) := by
  constructor
  · intro env handle_value signals deadline _observed handle obs hres hrights hbegin
    rw [wait_one_registered_trace env handle_value signals deadline _observed handle
      hres hrights hbegin]
    refine ⟨?_, ?_, ?_, ?_⟩
    · intro i
      by_cases hi : i = 0
      · by_cases hn : _observed.non_null = true <;>
          simp [hi, hn, List.countP_cons, Action.isBeginOf]
      · have hi2 : ¬ (0 = i) := fun e => hi e.symm
        by_cases hn : _observed.non_null = true <;>
          simp [hi, hi2, hn, List.countP_cons, Action.isBeginOf]
    · intro i
      by_cases hi : i = 0
      · by_cases hn : _observed.non_null = true <;>
          simp [hi, hn, List.count_cons]
      · have hi2 : ¬ (0 = i) := fun e => hi e.symm
        by_cases hn : _observed.non_null = true <;>
          simp [hi, hi2, hn, List.count_cons]
    · intro i
      by_cases hn : _observed.non_null = true <;>
        by_cases hi : i = 0 <;>
          simp [hn, hi, KState.run, KState.step, KState.initial, Function.update_apply]
    · intro d
      by_cases hn : _observed.non_null = true <;>
        by_cases hd : d = handle.dispatcher <;>
          simp [hn, hd, KState.run, KState.step, KState.initial, Function.update_apply]
  · intro env _items count deadline obs h1 h2 hnn hrd ha0 ha1 hok
    rw [wait_many_registered env _items count deadline h1 h2 hnn hrd ha0 ha1 hok]
    obtain ⟨_, s2, s3⟩ := run_registered env _items.mem count deadline obs
      ((List.range count).map fun i => { _items.mem i with pending := env.End i }) hok
    refine ⟨?_, ?_, s2, s3⟩
    · intro i
      show (locked_block_calls env _items.mem count count ++
          [Action.lock_release, Action.Wait deadline] ++
          (List.range' 0 count).map Action.End ++
          [Action.copy_array_to_user
            ((List.range count).map fun i => { _items.mem i with pending := env.End i })]
          ).countP (Action.isBeginOf i) = _
      unfold locked_block_calls
      have he0 : ((List.range' 0 count).map Action.End).countP (Action.isBeginOf i) = 0 := by
        rw [List.countP_eq_zero]
        intro a ha hb
        have := (ends_not_begin count 0 a ha).2.2.2.2.2.2 i
        rw [this] at hb
        exact absurd hb (by decide)
      rw [List.countP_append, List.countP_append, List.countP_append, List.countP_append,
        registrations_count_begin env _items.mem i count 0 (fun j _ hj => hok j (by omega)),
        he0]
      by_cases hi : i < count
      · rw [if_pos ⟨Nat.zero_le _, by omega⟩, if_pos hi]
        simp [List.countP_cons, Action.isBeginOf]
      · rw [if_neg (by omega), if_neg hi]
        simp [List.countP_cons, Action.isBeginOf]
    · intro i
      show (locked_block_calls env _items.mem count count ++
          [Action.lock_release, Action.Wait deadline] ++
          (List.range' 0 count).map Action.End ++
          [Action.copy_array_to_user
            ((List.range count).map fun i => { _items.mem i with pending := env.End i })]
          ).count (Action.End i) = _
      unfold locked_block_calls
      rw [List.count_append, List.count_append, List.count_append, List.count_append,
        registrations_count_end, ends_count]
      by_cases hi : i < count
      · rw [if_pos ⟨Nat.zero_le _, by omega⟩, if_pos hi]
        simp [List.count_cons]
      · rw [if_neg (by omega), if_neg hi]
        simp [List.count_cons]

/-- Witness for C2: in the sample process, a wait on handle 1 whose copy-out faults
and a wait on the two requests for handles 1 and 5 register fully; every object keeps
its 7 observers. -/
theorem begun_observers_ended_exactly_once_witness :
    sample_env.GetHandleLocked 1 = some ⟨10, 4⟩ ∧
    Handle.HasRights ⟨10, 4⟩ ZX_RIGHT_READ = true ∧
    sample_env.Begin 0 ⟨10, 4⟩ 1 = ZX_OK ∧
    (∀ j, j < 2 → registration_status sample_env j (sample_items j) = ZX_OK) ∧
    (∀ d, ((KState.initial fun _ => 7).run
      (sys_object_wait_one sample_env 1 1 100 (bad_ptr fun _ => 0)).trace).observers d
        = 7) ∧
    (∀ d, ((KState.initial fun _ => 7).run
      (sys_object_wait_many sample_env (good_ptr sample_items) 2 100).trace).observers d
        = 7) :=
  ⟨by decide, by decide, by decide, by decide,
   (begun_observers_ended_exactly_once.1 sample_env 1 1 100 (bad_ptr fun _ => 0) ⟨10, 4⟩
      (fun _ => 7) (by decide) (by decide) (by decide)).2.2.2,
   (begun_observers_ended_exactly_once.2 sample_env (good_ptr sample_items) 2 100
      (fun _ => 7) (by decide) (by decide) rfl rfl rfl rfl (by decide)).2.2.2⟩

/-- C3 (as stated) fails: the handle resolves with the read right, `Begin` succeeds and
the snapshot of `End` includes `ZX_SIGNAL_HANDLE_CLOSED`, but the copy-out through a
non-null `_observed` faults, and the call reports `ZX_ERR_INVALID_ARGS`, not
`ZX_ERR_CANCELED`. -/
theorem wait_one_closed_not_canceled_counterexample :
    closed_env.GetHandleLocked 1 = some ⟨10, 4⟩ ∧
    Handle.HasRights ⟨10, 4⟩ ZX_RIGHT_READ = true ∧
    closed_env.Begin 0 ⟨10, 4⟩ 1 = ZX_OK ∧
    includes_closed (closed_env.End 0) ∧
    (sys_object_wait_one closed_env 1 1 100 (bad_ptr fun _ => 0)).status
      = ZX_ERR_INVALID_ARGS ∧
    (sys_object_wait_one closed_env 1 1 100 (bad_ptr fun _ => 0)).status
      ≠ ZX_ERR_CANCELED := by
  decide

/-- C3 (amended): when the handle resolves with the read right and `Begin` succeeds,
a copy-out that faults (non-null `_observed`, failing `copy_to_user`) makes the call
report `ZX_ERR_INVALID_ARGS`; when the copy-out does not fault (null `_observed`, or a
successful copy) the call reports `ZX_ERR_CANCELED` if the snapshot of `End` includes
`ZX_SIGNAL_HANDLE_CLOSED`, whatever the Event outcome, and the Event outcome
otherwise. -/
theorem wait_one_status_after_registration (env : Env) (handle_value : zx_handle_t)
    (signals : zx_signals_t) (deadline : zx_time_t) (_observed : user_ptr zx_signals_t)
    (handle : Handle)
    (hres : env.GetHandleLocked handle_value = some handle)
    (hrights : handle.HasRights ZX_RIGHT_READ = true)
    (hbegin : env.Begin 0 handle signals = ZX_OK) :
    ((_observed.non_null = true ∧ _observed.writable = false) →
      (sys_object_wait_one env handle_value signals deadline _observed).status
        = ZX_ERR_INVALID_ARGS) ∧
    ((_observed.non_null = false ∨ _observed.writable = true) →
      (includes_closed (env.End 0) →
        (sys_object_wait_one env handle_value signals deadline _observed).status
          = ZX_ERR_CANCELED) ∧
      (¬ includes_closed (env.End 0) →
        (sys_object_wait_one env handle_value signals deadline _observed).status
          = env.Wait deadline)) := by
  refine ⟨?_, ?_⟩
  · rintro ⟨hn, hw⟩
    simp [sys_object_wait_one, hres, hrights, hbegin, WaitStateObserver.Begin,
      WaitStateObserver.End, hn, hw]
  · intro hc
    by_cases hn : _observed.non_null = true
    · have hw : _observed.writable = true := by
        rcases hc with hc | hc
        · simp [hn] at hc
        · exact hc
      constructor
      · intro hcl
        unfold includes_closed at hcl
        simp [sys_object_wait_one, hres, hrights, hbegin, WaitStateObserver.Begin,
          WaitStateObserver.End, hn, hw, hcl]
      · intro hcl
        unfold includes_closed at hcl
        simp only [ne_eq, not_not] at hcl
        simp [sys_object_wait_one, hres, hrights, hbegin, WaitStateObserver.Begin,
          WaitStateObserver.End, hn, hw, hcl]
    · simp only [Bool.not_eq_true] at hn
      constructor
      · intro hcl
        unfold includes_closed at hcl
        simp [sys_object_wait_one, hres, hrights, hbegin, WaitStateObserver.Begin,
          WaitStateObserver.End, hn, hcl]
      · intro hcl
        unfold includes_closed at hcl
        simp only [ne_eq, not_not] at hcl
        simp [sys_object_wait_one, hres, hrights, hbegin, WaitStateObserver.Begin,
          WaitStateObserver.End, hn, hcl]

/-- Witness for C3 (amended): handle 1 of the sample process, closed during the wait
while the Event outcome is `ZX_OK`, with a null `_observed`: the call is canceled. -/
theorem wait_one_status_after_registration_witness :
    closed_env.GetHandleLocked 1 = some ⟨10, 4⟩ ∧
    Handle.HasRights ⟨10, 4⟩ ZX_RIGHT_READ = true ∧
    closed_env.Begin 0 ⟨10, 4⟩ 1 = ZX_OK ∧
    closed_env.Wait 100 = ZX_OK ∧
    (sys_object_wait_one closed_env 1 1 100 (null_ptr fun _ => 0)).status
      = ZX_ERR_CANCELED :=
  ⟨by decide, by decide, by decide, by decide,
   ((wait_one_status_after_registration closed_env 1 1 100 (null_ptr fun _ => 0) ⟨10, 4⟩
      (by decide) (by decide) (by decide)).2 (Or.inl rfl)).1 (by decide)⟩

/-- C4: in a `sys_object_wait_many` with `1 ≤ count ≤ 1024` whose `count` registrations
all succeed and whose copy-out succeeds, the Event outcome being `ZX_OK` or
`ZX_ERR_TIMED_OUT`, the status is `ZX_ERR_CANCELED` if and only if the bitwise OR of
the `count` snapshots of `End` includes `ZX_SIGNAL_HANDLE_CLOSED`, that is if and only
if some snapshot does; when none does the status is the Event outcome. -/
theorem wait_many_canceled_iff_closed (env : Env) (_items : user_ptr zx_wait_item_t)
    (count : Nat) (deadline : zx_time_t)
    (h1 : 1 ≤ count) (h2 : count ≤ kMaxWaitHandleCount)
    (hnn : _items.non_null = true) (hrd : _items.readable = true)
    (ha0 : env.alloc_check 0 = true) (ha1 : env.alloc_check 1 = true)
    (hok : ∀ j, j < count → registration_status env j (_items.mem j) = ZX_OK)
    (hw : _items.writable = true)
    (hev : env.Wait deadline = ZX_OK ∨ env.Wait deadline = ZX_ERR_TIMED_OUT) :
    ((sys_object_wait_many env _items count deadline).status = ZX_ERR_CANCELED ↔
      includes_closed (combined_signals env count)) ∧
    (includes_closed (combined_signals env count) ↔
      ∃ i, i < count ∧ includes_closed (env.End i)) ∧
    (¬ includes_closed (combined_signals env count) →
      (sys_object_wait_many env _items count deadline).status = env.Wait deadline) := by
  rw [wait_many_registered env _items count deadline h1 h2 hnn hrd ha0 ha1 hok]
  refine ⟨?_, includes_closed_combined env count, ?_⟩
  · by_cases hc : includes_closed (combined_signals env count)
    · have hc2 := hc
      unfold includes_closed at hc2
      simp [hw, hc, hc2]
    · have hc2 := hc
      unfold includes_closed at hc2
      simp only [ne_eq, not_not] at hc2
      have hne : env.Wait deadline ≠ ZX_ERR_CANCELED := by
        rcases hev with h | h <;> rw [h] <;> decide
      simp [hw, hc, hc2, hne]
  · intro hc
    have hc2 := hc
    unfold includes_closed at hc2
    simp only [ne_eq, not_not] at hc2
    simp [hw, hc2]

/-- Witness for C4: the two sample requests, both handles closed during a wait whose
Event outcome is `ZX_OK`: the call is canceled. -/
theorem wait_many_canceled_iff_closed_witness :
    (∀ j, j < 2 → registration_status closed_env j (sample_items j) = ZX_OK) ∧
    closed_env.Wait 100 = ZX_OK ∧
    includes_closed (combined_signals closed_env 2) ∧
    (sys_object_wait_many closed_env (good_ptr sample_items) 2 100).status
      = ZX_ERR_CANCELED :=
  ⟨by decide, by decide, by decide,
   (wait_many_canceled_iff_closed closed_env (good_ptr sample_items) 2 100 (by decide)
      (by decide) rfl rfl rfl rfl (by decide) rfl (Or.inl (by decide))).1.2 (by decide)⟩

/-- C5 (as stated) fails: a `sys_object_wait_one` that registers fully and returns
`ZX_OK`, called with a null `_observed`, copies nothing out. -/
theorem wait_one_null_observed_counterexample :
    sample_env.GetHandleLocked 1 = some ⟨10, 4⟩ ∧
    Handle.HasRights ⟨10, 4⟩ ZX_RIGHT_READ = true ∧
    sample_env.Begin 0 ⟨10, 4⟩ 1 = ZX_OK ∧
    (sys_object_wait_one sample_env 1 1 100 (null_ptr fun _ => 0)).status = ZX_OK ∧
    (sys_object_wait_one sample_env 1 1 100 (null_ptr fun _ => 0)).observed = none ∧
    (sys_object_wait_one sample_env 1 1 100 (null_ptr fun _ => 0)).trace.all
      (fun a => !a.isCopyOut) = true ∧
    (sys_object_wait_one sample_env 1 1 100 (null_ptr fun _ => 0)).observed
      ≠ some (sample_env.End 0) := by
  decide

/-- C5 (amended): observed snapshots reach the caller regardless of status.  Every
fully registered `sys_object_wait_one` whose outcome is `ZX_OK`, `ZX_ERR_TIMED_OUT` or
`ZX_ERR_CANCELED`, called with a non-null `_observed`, copies out exactly the snapshot
returned by `End`; called with a null `_observed` it copies nothing out.  Every fully
registered `sys_object_wait_many` whose outcome is `ZX_OK`, `ZX_ERR_TIMED_OUT` or
`ZX_ERR_CANCELED` writes back a list of length `count` in which entry `i` keeps the
handle and the requested mask of request `i` and has the snapshot returned by `End`
on observer `i` as `pending`. -/
theorem observed_snapshots_reach_caller :
    (∀ (env : Env) (handle_value : zx_handle_t) (signals : zx_signals_t)
        (deadline : zx_time_t) (_observed : user_ptr zx_signals_t) (handle : Handle),
      env.GetHandleLocked handle_value = some handle →
      handle.HasRights ZX_RIGHT_READ = true →
      env.Begin 0 handle signals = ZX_OK →
      ((sys_object_wait_one env handle_value signals deadline _observed).status = ZX_OK ∨
        (sys_object_wait_one env handle_value signals deadline _observed).status
          = ZX_ERR_TIMED_OUT ∨
        (sys_object_wait_one env handle_value signals deadline _observed).status
          = ZX_ERR_CANCELED) →
      _observed.non_null = true →
      (sys_object_wait_one env handle_value signals deadline _observed).observed
        = some (env.End 0) ∧
      Action.copy_to_user (env.End 0)
        ∈ (sys_object_wait_one env handle_value signals deadline _observed).trace) ∧
    (∀ (env : Env) (handle_value : zx_handle_t) (signals : zx_signals_t)
        (deadline : zx_time_t) (_observed : user_ptr zx_signals_t) (handle : Handle),
      env.GetHandleLocked handle_value = some handle →
      handle.HasRights ZX_RIGHT_READ = true →
      env.Begin 0 handle signals = ZX_OK →
      ((sys_object_wait_one env handle_value signals deadline _observed).status = ZX_OK ∨
        (sys_object_wait_one env handle_value signals deadline _observed).status
          = ZX_ERR_TIMED_OUT ∨
        (sys_object_wait_one env handle_value signals deadline _observed).status
          = ZX_ERR_CANCELED) →
      _observed.non_null = false →
      (sys_object_wait_one env handle_value signals deadline _observed).observed = none ∧
      ∀ a ∈ (sys_object_wait_one env handle_value signals deadline _observed).trace,
        a.isCopyOut = false) ∧
    (∀ (env : Env) (_items : user_ptr zx_wait_item_t) (count : Nat) (deadline : zx_time_t),
      1 ≤ count → count ≤ kMaxWaitHandleCount →
      _items.non_null = true → _items.readable = true →
      env.alloc_check 0 = true → env.alloc_check 1 = true →
      (∀ j, j < count → registration_status env j (_items.mem j) = ZX_OK) →
      ((sys_object_wait_many env _items count deadline).status = ZX_OK ∨
        (sys_object_wait_many env _items count deadline).status = ZX_ERR_TIMED_OUT ∨
        (sys_object_wait_many env _items count deadline).status = ZX_ERR_CANCELED) →
      ∃ its, (sys_object_wait_many env _items count deadline).items = some its ∧
        Action.copy_array_to_user its
          ∈ (sys_object_wait_many env _items count deadline).trace ∧
        its.length = count ∧
        ∀ i, i < count →
          its[i]? = some { handle := (_items.mem i).handle,
                           waitfor := (_items.mem i).waitfor, pending := env.End i }) := by
  refine ⟨?_, ?_, ?_⟩
  · intro env handle_value signals deadline _observed handle hres hrights hbegin hst1 hn
    rw [wait_one_registered_trace env handle_value signals deadline _observed handle
      hres hrights hbegin]
    by_cases hw : _observed.writable = true
    · by_cases hc : env.End 0 &&& ZX_SIGNAL_HANDLE_CLOSED = 0
      · simp [sys_object_wait_one, hres, hrights, hbegin, WaitStateObserver.Begin,
          WaitStateObserver.End, hn, hw, hc]
      · simp [sys_object_wait_one, hres, hrights, hbegin, WaitStateObserver.Begin,
          WaitStateObserver.End, hn, hw, hc]
    · exfalso
      have hinv : (sys_object_wait_one env handle_value signals deadline _observed).status
          = ZX_ERR_INVALID_ARGS := by
        simp [sys_object_wait_one, hres, hrights, hbegin, WaitStateObserver.Begin,
          WaitStateObserver.End, hn, hw]
      rw [hinv] at hst1
      revert hst1
      decide
  · intro env handle_value signals deadline _observed handle hres hrights hbegin _ hn
    rw [wait_one_registered_trace env handle_value signals deadline _observed handle
      hres hrights hbegin]
    by_cases hc : env.End 0 &&& ZX_SIGNAL_HANDLE_CLOSED = 0
    · simp [sys_object_wait_one, hres, hrights, hbegin, WaitStateObserver.Begin,
        WaitStateObserver.End, hn, hc, Action.isCopyOut]
    · simp [sys_object_wait_one, hres, hrights, hbegin, WaitStateObserver.Begin,
        WaitStateObserver.End, hn, hc, Action.isCopyOut]
  · intro env _items count deadline h1 h2 hnn hrd ha0 ha1 hok hst2
    rw [wait_many_registered env _items count deadline h1 h2 hnn hrd ha0 ha1 hok] at hst2 ⊢
    have hw : _items.writable = true := by
      by_cases hw : _items.writable = true
      · exact hw
      · exfalso
        simp only [Bool.not_eq_true] at hw
        simp only [hw, if_true] at hst2
        revert hst2
        decide
    refine ⟨(List.range count).map fun i => { _items.mem i with pending := env.End i },
      ?_, ?_, ?_, ?_⟩
    · simp [hw]
    · simp
    · simp
    · intro i hi
      simp [List.getElem?_map, List.getElem?_range hi]

/-- Witness for C5 (amended): the sample waits, with writable user memory; the caller
gets the snapshot 1 of `End`. -/
theorem observed_snapshots_reach_caller_witness :
    sample_env.GetHandleLocked 1 = some ⟨10, 4⟩ ∧
    Handle.HasRights ⟨10, 4⟩ ZX_RIGHT_READ = true ∧
    sample_env.Begin 0 ⟨10, 4⟩ 1 = ZX_OK ∧
    (∀ j, j < 2 → registration_status sample_env j (sample_items j) = ZX_OK) ∧
    (sys_object_wait_one sample_env 1 1 100 (good_ptr fun _ => 0)).status = ZX_OK ∧
    (sys_object_wait_many sample_env (good_ptr sample_items) 2 100).status = ZX_OK ∧
    (sys_object_wait_one sample_env 1 1 100 (good_ptr fun _ => 0)).observed = some 1 ∧
    (∃ its, (sys_object_wait_many sample_env (good_ptr sample_items) 2 100).items
        = some its ∧
      Action.copy_array_to_user its
        ∈ (sys_object_wait_many sample_env (good_ptr sample_items) 2 100).trace ∧
      its.length = 2 ∧
      ∀ i, i < 2 →
        its[i]? = some { handle := (sample_items i).handle,
                         waitfor := (sample_items i).waitfor, pending := 1 }) :=
  ⟨by decide, by decide, by decide, by decide, by decide, by decide,
   (observed_snapshots_reach_caller.1 sample_env 1 1 100 (good_ptr fun _ => 0) ⟨10, 4⟩
      (by decide) (by decide) (by decide) (Or.inl (by decide)) rfl).1,
   observed_snapshots_reach_caller.2.2 sample_env (good_ptr sample_items) 2 100
      (by decide) (by decide) rfl rfl rfl rfl (by decide) (Or.inl (by decide))⟩

/-- C6 (as stated) fails: with `count = 0`, when the interruptible sleep reports an
error status the call returns that status, not `ZX_ERR_TIMED_OUT`. -/
theorem wait_many_zero_count_counterexample :
    interrupted_env.thread_sleep_etc 100 true = -6 ∧
    (sys_object_wait_many interrupted_env (good_ptr sample_items) 0 100).status = -6 ∧
    (sys_object_wait_many interrupted_env (good_ptr sample_items) 0 100).status
      ≠ ZX_ERR_TIMED_OUT := by
  decide

/-- C6 (amended): `sys_object_wait_many` with `count = 0`, for every deadline and every
request pointer, only sleeps (`thread_sleep_etc(deadline, true)`): it never returns
`ZX_OK`, it returns `ZX_ERR_TIMED_OUT` when the sleep returns `ZX_OK` and the status
of the sleep otherwise, and it resolves no handle, begins no observer and stores
nothing. -/
theorem wait_many_zero_count (env : Env) (_items : user_ptr zx_wait_item_t)
    (deadline : zx_time_t) :
    (sys_object_wait_many env _items 0 deadline).status ≠ ZX_OK ∧
    (env.thread_sleep_etc deadline true = ZX_OK →
      (sys_object_wait_many env _items 0 deadline).status = ZX_ERR_TIMED_OUT) ∧
    (env.thread_sleep_etc deadline true ≠ ZX_OK →
      (sys_object_wait_many env _items 0 deadline).status
        = env.thread_sleep_etc deadline true) ∧
    (sys_object_wait_many env _items 0 deadline).trace = [Action.thread_sleep_etc deadline] ∧
    (sys_object_wait_many env _items 0 deadline).items = none := by
  by_cases h : env.thread_sleep_etc deadline true = ZX_OK
  · simp [sys_object_wait_many, h]
    decide
  · simp [sys_object_wait_many, h]

/-- C7 (as stated) fails: with `count = 0` an absent request pointer is not rejected;
the call sleeps and returns `ZX_ERR_TIMED_OUT`. -/
theorem wait_many_absent_pointer_counterexample :
    (null_ptr sample_items).non_null = false ∧
    (sys_object_wait_many sample_env (null_ptr sample_items) 0 100).status
      = ZX_ERR_TIMED_OUT ∧
    (sys_object_wait_many sample_env (null_ptr sample_items) 0 100).status
      ≠ ZX_ERR_INVALID_ARGS ∧
    (sys_object_wait_many sample_env (null_ptr sample_items) 0 100).trace
      = [Action.thread_sleep_etc 100] := by
  decide

/-- C7 (amended): a `sys_object_wait_many` with `count ≠ 0` in which `count` exceeds
`kMaxWaitHandleCount = 1024` or the request pointer is absent is rejected with
`ZX_ERR_INVALID_ARGS` without any collaborator call: no handle is resolved, no
observer is begun, nothing is written back.  A count of exactly 1024 is not rejected
on size grounds: with a present, readable request pointer and successful allocations
the call goes on to resolve the handle of request 0. -/
theorem wait_many_rejects_oversized_or_absent (env : Env)
    (_items : user_ptr zx_wait_item_t) (count : Nat) (deadline : zx_time_t)
    (h0 : count ≠ 0)
    (h : count > kMaxWaitHandleCount ∨ _items.non_null = false) :
    ((sys_object_wait_many env _items count deadline).status = ZX_ERR_INVALID_ARGS ∧
     (sys_object_wait_many env _items count deadline).trace = [] ∧
     (sys_object_wait_many env _items count deadline).items = none ∧
     (sys_object_wait_many env _items count deadline).observed = none) ∧
    kMaxWaitHandleCount = 1024 ∧
    (∀ p : user_ptr zx_wait_item_t, p.non_null = true → p.readable = true →
      env.alloc_check 0 = true → env.alloc_check 1 = true →
      Action.GetHandleLocked (p.mem 0).handle
        ∈ (sys_object_wait_many env p 1024 deadline).trace) := by
  refine ⟨?_, rfl, ?_⟩
  · by_cases hn : _items.non_null = true
    · have hgt : count > kMaxWaitHandleCount := by
        rcases h with h | h
        · exact h
        · rw [hn] at h
          exact absurd h (by decide)
      simp [sys_object_wait_many, h0, hn, hgt]
    · simp [sys_object_wait_many, h0, hn]
  · intro p hnn hrd ha0 ha1
    rw [wait_many_trace_shape env p 1024 deadline (by decide) (by decide) hnn hrd ha0 ha1]
    have hhead := register_loop_head env ((List.range 1024).map p.mem) 1023 0
    rw [getD_copy_array p.mem 1024 0 (by decide)] at hhead
    simp only [List.mem_append]
    exact Or.inl (Or.inl (Or.inr hhead))

/-- Witness for C7 (amended): 1025 requests are rejected outright. -/
theorem wait_many_rejects_oversized_or_absent_witness :
    (1025 ≠ 0 ∧ 1025 > kMaxWaitHandleCount) ∧
    (sys_object_wait_many sample_env (good_ptr sample_items) 1025 100).status
      = ZX_ERR_INVALID_ARGS ∧
    (sys_object_wait_many sample_env (good_ptr sample_items) 1025 100).trace = [] :=
  have T := wait_many_rejects_oversized_or_absent sample_env (good_ptr sample_items) 1025
    100 (by decide) (Or.inl (by decide))
  ⟨by decide, T.1.1, T.1.2.1⟩

/-- C8: `sys_object_wait_one` returns `ZX_ERR_BAD_HANDLE` when the handle value is
absent from the table and `ZX_ERR_ACCESS_DENIED` when it is present without
`ZX_RIGHT_READ`; in both cases no `Begin` is called, the thread is never suspended on
the Event, nothing is copied out, and every object's observer count is unchanged. -/
theorem wait_one_rejects_unresolved_handle (env : Env) (handle_value : zx_handle_t)
    (signals : zx_signals_t) (deadline : zx_time_t) (_observed : user_ptr zx_signals_t)
    (observers : zx_koid_t → Nat)
    (h : env.GetHandleLocked handle_value = none ∨
      ∃ handle, env.GetHandleLocked handle_value = some handle ∧
        handle.HasRights ZX_RIGHT_READ = false) :
    (env.GetHandleLocked handle_value = none →
      (sys_object_wait_one env handle_value signals deadline _observed).status
        = ZX_ERR_BAD_HANDLE) ∧
    (∀ handle, env.GetHandleLocked handle_value = some handle →
      handle.HasRights ZX_RIGHT_READ = false →
      (sys_object_wait_one env handle_value signals deadline _observed).status
        = ZX_ERR_ACCESS_DENIED) ∧
    (∀ a ∈ (sys_object_wait_one env handle_value signals deadline _observed).trace,
      a.isBegin = false ∧ a.isSuspend = false ∧ a.isCopyOut = false) ∧
    (sys_object_wait_one env handle_value signals deadline _observed).observed = none ∧
    (∀ d, ((KState.initial observers).run
      (sys_object_wait_one env handle_value signals deadline _observed).trace).observers d
        = observers d) := by
  rcases h with h | ⟨handle, h, hr⟩
  · simp [sys_object_wait_one, h, Action.isBegin, Action.isSuspend, Action.isCopyOut,
      KState.run, KState.step, KState.initial]
  · simp [sys_object_wait_one, h, hr, Action.isBegin, Action.isSuspend, Action.isCopyOut,
      KState.run, KState.step, KState.initial]

/-- Witness for C8: handle 2 of the sample process lacks the read right. -/
theorem wait_one_rejects_unresolved_handle_witness :
    (sample_env.GetHandleLocked 2 = none ∨
      ∃ handle, sample_env.GetHandleLocked 2 = some handle ∧
        handle.HasRights ZX_RIGHT_READ = false) ∧
    (sys_object_wait_one sample_env 2 1 100 (good_ptr fun _ => 0)).status
      = ZX_ERR_ACCESS_DENIED ∧
    (∀ d, ((KState.initial fun _ => 7).run
      (sys_object_wait_one sample_env 2 1 100 (good_ptr fun _ => 0)).trace).observers d
        = 7) :=
  have h : sample_env.GetHandleLocked 2 = none ∨
      ∃ handle, sample_env.GetHandleLocked 2 = some handle ∧
        handle.HasRights ZX_RIGHT_READ = false :=
    Or.inr ⟨⟨20, 0⟩, by decide, by decide⟩
  ⟨h,
   (wait_one_rejects_unresolved_handle sample_env 2 1 100 (good_ptr fun _ => 0)
      (fun _ => 7) h).2.1 ⟨20, 0⟩ (by decide) (by decide),
   (wait_one_rejects_unresolved_handle sample_env 2 1 100 (good_ptr fun _ => 0)
      (fun _ => 7) h).2.2.2.2⟩

/-- C9: `sys_object_wait_async` fails fast and only registers.  If resolving
`port_handle` with `ZX_RIGHT_WRITE` fails, that status is returned whatever the target
handle is; otherwise the call returns `ZX_ERR_BAD_HANDLE` for an absent target handle,
`ZX_ERR_ACCESS_DENIED` for one without `ZX_RIGHT_READ`, and otherwise the status of
one `MakeObserver(options, handle, key, signals)` call on the resolved port with the
caller's arguments unchanged.  `MakeObserver` is called if and only if all three
checks pass.  On every path no `Event` is constructed, no wait-state observer is begun
or ended, and the thread is never suspended. -/
theorem wait_async_fails_fast (env : Env) (handle_value port_handle : zx_handle_t)
    (key : Nat) (signals : zx_signals_t) (options : Nat) :
    ((env.GetDispatcherWithRights port_handle ZX_RIGHT_WRITE).1 ≠ ZX_OK →
      (sys_object_wait_async env handle_value port_handle key signals options).status
        = (env.GetDispatcherWithRights port_handle ZX_RIGHT_WRITE).1) ∧
    ((env.GetDispatcherWithRights port_handle ZX_RIGHT_WRITE).1 = ZX_OK →
      (env.GetHandleLocked handle_value = none →
        (sys_object_wait_async env handle_value port_handle key signals options).status
          = ZX_ERR_BAD_HANDLE) ∧
      (∀ handle, env.GetHandleLocked handle_value = some handle →
        (handle.HasRights ZX_RIGHT_READ = false →
          (sys_object_wait_async env handle_value port_handle key signals options).status
            = ZX_ERR_ACCESS_DENIED) ∧
        (handle.HasRights ZX_RIGHT_READ = true →
          (sys_object_wait_async env handle_value port_handle key signals options).status
            = env.MakeObserver (env.GetDispatcherWithRights port_handle ZX_RIGHT_WRITE).2
                options handle key signals ∧
          (sys_object_wait_async env handle_value port_handle key signals options).trace.filter
              Action.isMakeObserver
            = [Action.MakeObserver (env.GetDispatcherWithRights port_handle ZX_RIGHT_WRITE).2
                options handle key signals]))) ∧
    ((∃ a ∈ (sys_object_wait_async env handle_value port_handle key signals options).trace,
        a.isMakeObserver = true) ↔
      ((env.GetDispatcherWithRights port_handle ZX_RIGHT_WRITE).1 = ZX_OK ∧
        ∃ handle, env.GetHandleLocked handle_value = some handle ∧
          handle.HasRights ZX_RIGHT_READ = true)) ∧
    (∀ a ∈ (sys_object_wait_async env handle_value port_handle key signals options).trace,
      a.isEvent = false ∧ a.isSuspend = false ∧ a.isBegin = false ∧ a.isEnd = false) := by
  by_cases hp : (env.GetDispatcherWithRights port_handle ZX_RIGHT_WRITE).1 = ZX_OK
  · cases hh : env.GetHandleLocked handle_value with
    | none =>
      simp [sys_object_wait_async, hp, hh, Action.isMakeObserver, Action.isSuspend,
        Action.isEvent, Action.isBegin, Action.isEnd]
    | some handle =>
      by_cases hr : handle.HasRights ZX_RIGHT_READ = true
      · simp [sys_object_wait_async, hp, hh, hr, Action.isMakeObserver, Action.isSuspend,
        Action.isEvent, Action.isBegin, Action.isEnd]
      · simp only [Bool.not_eq_true] at hr
        simp [sys_object_wait_async, hp, hh, hr, Action.isMakeObserver, Action.isSuspend,
        Action.isEvent, Action.isBegin, Action.isEnd]
  · simp [sys_object_wait_async, hp, Action.isMakeObserver, Action.isSuspend,
        Action.isEvent, Action.isBegin, Action.isEnd]

/-- C10: the handle-table lock is never held while the calling thread is suspended.
In every execution of `sys_object_wait_one` and of `sys_object_wait_many` the lock is
acquired only when free and released only when held, it is free when the call returns
and acquisitions and releases are equal in number (so every acquisition has its
release, on the early error returns too); at each suspending step (`event.Wait`, or
`thread_sleep_etc` when `count = 0`) the lock is not held; and while it is held the
call only resolves handles, checks rights and calls `Begin`. -/
theorem handle_table_lock_not_held_while_suspended (env : Env)
    (handle_value : zx_handle_t) (signals : zx_signals_t) (deadline : zx_time_t)
    (_observed : user_ptr zx_signals_t) (_items : user_ptr zx_wait_item_t) (count : Nat) :
    (lock_discipline false
        (sys_object_wait_one env handle_value signals deadline _observed).trace = true ∧
      lock_scoped_to_registration
        (sys_object_wait_one env handle_value signals deadline _observed).trace) ∧
    (lock_discipline false
        (sys_object_wait_many env _items count deadline).trace = true ∧
      lock_scoped_to_registration
        (sys_object_wait_many env _items count deadline).trace) :=
  ⟨⟨wait_one_lock_discipline env handle_value signals deadline _observed,
    lock_discipline_scoped _
      (wait_one_lock_discipline env handle_value signals deadline _observed)⟩,
   ⟨wait_many_lock_discipline env _items count deadline,
    lock_discipline_scoped _ (wait_many_lock_discipline env _items count deadline)⟩⟩

end Zircon
